import Mathlib

/-!
# BMS.c : measurement, fault detection, throttling and the circular log

A shallow embedding of `src/BMS.c` (single-cell battery monitor for the Pico).

Conventions of the embedding

* C `float` values are `CFloat`: a finite value kept as an exact rational, the two
  infinities, or NaN.  Comparisons and the special values follow IEEE-754; the
  arithmetic operations on finite values are exact, and the two signed zeros are one
  value.  Rounding to binary32 is `CFloat.b32`; `calculate_throttle_factor_b32` is the
  throttle function with every operation rounded, used where its exact values matter.
* `uint32_t` values are naturals below `U32_MOD`; arithmetic that can wrap carries an
  explicit `% U32_MOD`.
* The globals (`log_buffer`, `cal_factor`, `voltage_offset`, `CELL_OV_LIMIT_V`,
  `CELL_UV_LIMIT_V`) are passed explicitly; `printf` output is returned as a list of `Out`.
* The hardware and libc collaborators (`adc_read`, `rand`, the clock, `strtof`, `atoi`,
  `sqrtf`) are parameters.
-/

namespace BMS

/-! ## C float -/

/-- C `float`: finite (exact rational), plus infinity, minus infinity, or NaN. -/
inductive CFloat where
  | fin (q : ℚ)
  | pinf
  | ninf
  | nan
deriving DecidableEq

namespace CFloat

/-- IEEE `a < b`; false as soon as one side is NaN. -/
def lt : CFloat → CFloat → Bool
  | fin a, fin b => decide (a < b)
  | fin _, pinf => true
  | ninf, fin _ => true
  | ninf, pinf => true
  | _, _ => false

/-- IEEE `a <= b`; false as soon as one side is NaN. -/
def le : CFloat → CFloat → Bool
  | fin a, fin b => decide (a ≤ b)
  | fin _, pinf => true
  | ninf, fin _ => true
  | ninf, pinf => true
  | pinf, pinf => true
  | ninf, ninf => true
  | _, _ => false

/-- IEEE `a > b`. -/
def gt (a b : CFloat) : Bool := lt b a

/-- IEEE `a >= b`. -/
def ge (a b : CFloat) : Bool := le b a

/-- Unary minus. -/
def neg : CFloat → CFloat
  | fin a => fin (-a)
  | pinf => ninf
  | ninf => pinf
  | nan => nan

/-- IEEE `a + b` (finite sums exact). -/
def add : CFloat → CFloat → CFloat
  | fin a, fin b => fin (a + b)
  | nan, _ => nan
  | _, nan => nan
  | pinf, ninf => nan
  | ninf, pinf => nan
  | pinf, _ => pinf
  | _, pinf => pinf
  | ninf, _ => ninf
  | _, ninf => ninf

/-- IEEE `a - b`. -/
def sub (a b : CFloat) : CFloat := add a (neg b)

/-- IEEE `a * b` (finite products exact). -/
def mul : CFloat → CFloat → CFloat
  | fin a, fin b => fin (a * b)
  | nan, _ => nan
  | _, nan => nan
  | fin a, pinf => if a = 0 then nan else if 0 < a then pinf else ninf
  | fin a, ninf => if a = 0 then nan else if 0 < a then ninf else pinf
  | pinf, fin b => if b = 0 then nan else if 0 < b then pinf else ninf
  | ninf, fin b => if b = 0 then nan else if 0 < b then ninf else pinf
  | pinf, pinf => pinf
  | ninf, ninf => pinf
  | pinf, ninf => ninf
  | ninf, pinf => ninf

/-- IEEE `a / b` (finite quotients exact; a zero divisor is taken as `+0`). -/
def div : CFloat → CFloat → CFloat
  | fin a, fin b =>
      if b = 0 then (if a = 0 then nan else if 0 < a then pinf else ninf) else fin (a / b)
  | nan, _ => nan
  | _, nan => nan
  | fin _, pinf => fin 0
  | fin _, ninf => fin 0
  | pinf, fin b => if 0 ≤ b then pinf else ninf
  | ninf, fin b => if 0 ≤ b then ninf else pinf
  | pinf, pinf => nan
  | pinf, ninf => nan
  | ninf, pinf => nan
  | ninf, ninf => nan

/-- Conversion of an unsigned integer to `float`. -/
def ofNat (n : Nat) : CFloat := fin (n : ℚ)

end CFloat

/-! ## binary32 rounding

`CFloat` arithmetic is exact.  Where the exact value of a float computation matters, the
operations are followed by `CFloat.b32`, the rounding of the exact result to binary32
(round to nearest, ties to even, subnormals and overflow included). -/

/-- The integer nearest to `num / den`, the even one on a tie. -/
def round_half_even (num den : Nat) : Nat :=
  let fl := num / den
  let rem := num % den
  if 2 * rem < den then fl
  else if den < 2 * rem then fl + 1
  else if fl % 2 = 0 then fl else fl + 1

/-- Floor of the binary logarithm of `n` (0 for `n < 2`), by halving at most `fuel` times. -/
def log2_fuel : Nat → Nat → Nat
  | 0, _ => 0
  | fuel + 1, n => if n < 2 then 0 else log2_fuel fuel (n / 2) + 1

/-- For the magnitude `a / d`: the number `s` such that the binary32 spacing at `a / d` is
`2 ^ (s - 149)`.  With `e` the binary exponent of `a / d`, `s = e + 126` in the normal
range and `s = 0` below `2 ^ -126`, where the spacing is that of the subnormals. -/
def b32_shift (a d : Nat) : Nat := log2_fuel 512 (a * 2 ^ 126 / d)

/-- The magnitude `a / d` in units of the binary32 spacing, rounded to nearest even. -/
def b32_mant (a d : Nat) : Nat :=
  let s := b32_shift a d
  if 149 ≤ s then round_half_even a (d * 2 ^ (s - 149))
  else round_half_even (a * 2 ^ (149 - s)) d

/-- Rounding of a rational to binary32: the nearest multiple of the spacing, ties to the
even significand; a result of magnitude `2 ^ 128` or more is an infinity. -/
def b32_round (q : ℚ) : CFloat :=
  let a := q.num.natAbs
  let d := q.den
  let s := b32_shift a d
  let m := b32_mant a d
  if 2 ^ 128 * 2 ^ 149 ≤ m * 2 ^ s then (if q < 0 then .ninf else .pinf)
  else .fin ((if q < 0 then -(m : ℚ) else (m : ℚ)) * (2 : ℚ) ^ ((s : ℤ) - 149))

/-- Rounding of the exact result of a float operation to binary32. -/
def CFloat.b32 : CFloat → CFloat
  | .fin q => b32_round q
  | .pinf => .pinf
  | .ninf => .ninf
  | .nan => .nan

/-! ## CONFIG -/

def RMS_SAMPLES : Nat := 100
def LOG_SIZE : Nat := 100
def LOG_INTERVAL_MS : Nat := 1000

/-- Modulus of `uint32_t` arithmetic. -/
def U32_MOD : Nat := 4294967296

def R_TOP : CFloat := .fin 100000
def R_BOTTOM : CFloat := .fin 47000
def I_ZERO_V : CFloat := .fin (165 / 100)
def I_SCALE : CFloat := .fin (303 / 10)
def TEMP_WARN_C : CFloat := .fin 50
def TEMP_SHUT_C : CFloat := .fin 60
def THROTTLE_START_TEMP : CFloat := .fin 45
def THROTTLE_MAX_TEMP : CFloat := .fin 55

/-! ## Data model -/

structure bms_status_t where
  cell_v : CFloat
  cell_v_rms : CFloat
  cell_temp_c : CFloat
  ov_flag : Bool
  uv_flag : Bool
  t_warn : Bool
  t_fault : Bool
  pack_v : CFloat
  pack_v_rms : CFloat
  pack_i : CFloat
  pack_i_rms : CFloat
  pack_power : CFloat
  pack_power_rms : CFloat
  throttle_factor : CFloat
  voltage_pin : CFloat
  data_valid : Bool
deriving DecidableEq

structure log_entry_t where
  timestamp_ms : Nat
  status : bms_status_t
deriving DecidableEq

/-- The all-zero `bms_status_t` (`= {0}`). -/
def bms_status_zero : bms_status_t :=
  { cell_v := .fin 0, cell_v_rms := .fin 0, cell_temp_c := .fin 0,
    ov_flag := false, uv_flag := false, t_warn := false, t_fault := false,
    pack_v := .fin 0, pack_v_rms := .fin 0, pack_i := .fin 0, pack_i_rms := .fin 0,
    pack_power := .fin 0, pack_power_rms := .fin 0, throttle_factor := .fin 0,
    voltage_pin := .fin 0, data_valid := false }

/-- The all-zero `log_entry_t`. -/
def log_entry_zero : log_entry_t := ⟨0, bms_status_zero⟩

structure log_buffer_t where
  entries : List log_entry_t
  write_index : Nat
  count : Nat
deriving DecidableEq

/-- The zero-initialised buffer `static log_buffer_t log_buffer = {0}`. -/
def log_buffer_init : log_buffer_t :=
  { entries := List.replicate LOG_SIZE log_entry_zero, write_index := 0, count := 0 }

/-! ## LOGGING FUNCTIONS -/

/-- Body of `log_add_entry`; `now` is `to_ms_since_boot(get_absolute_time())`. -/
def log_add_entry (lb : log_buffer_t) (now : Nat) (status : bms_status_t) : log_buffer_t :=
  { entries := lb.entries.set lb.write_index ⟨now, status⟩
    write_index := ((lb.write_index + 1) % U32_MOD) % LOG_SIZE
    count := if lb.count < LOG_SIZE then lb.count + 1 else lb.count }

/-- The `uint32_t` expression `(log_buffer.write_index + LOG_SIZE - n) % LOG_SIZE`. -/
def log_start (lb : log_buffer_t) (n : Nat) : Nat :=
  (((lb.write_index + LOG_SIZE) % U32_MOD + U32_MOD - n % U32_MOD) % U32_MOD) % LOG_SIZE

/-- The loop `for (i = 0; i < n; i++) { idx = (start + i) % LOG_SIZE; ... entries[idx] ... }`:
the entries it visits, in order. -/
def log_visit (lb : log_buffer_t) (start n : Nat) : List log_entry_t :=
  (List.range n).map fun i =>
    lb.entries.getD (((start + i) % U32_MOD) % LOG_SIZE) log_entry_zero

/-- Ordered iteration of `log_print_all`, `log_export_csv` and `log_stats`:
`start = (write_index + LOG_SIZE - count) % LOG_SIZE`, then `count` slots. -/
def log_iterate (lb : log_buffer_t) : List log_entry_t :=
  log_visit lb (log_start lb lb.count) lb.count

/-- Body of `log_clear` (state part). -/
def log_clear (lb : log_buffer_t) : log_buffer_t :=
  { lb with write_index := 0, count := 0 }

/-- Accumulators of `log_stats` (and, after the final divisions, its results). -/
structure log_stats_t where
  min_v : CFloat
  max_v : CFloat
  avg_v : CFloat
  min_t : CFloat
  max_t : CFloat
  avg_t : CFloat
  total_energy : CFloat
  fault_count : Nat
deriving DecidableEq

/-- One unit of `printf` output.  Number formatting is not modelled: a unit carries the
values that are formatted. -/
inductive Out where
  | text (s : String)
  | value (s : String) (v : CFloat)
  | number (s : String) (n : Nat)
  | row (e : log_entry_t)
  | status (st : bms_status_t)
  | stats (r : log_stats_t) (fault_percent : CFloat)
  | unknown (line : List Char)
deriving DecidableEq

/-- The log entry a unit of output prints, when it is a table or CSV row. -/
def Out.entry? : Out → Option log_entry_t
  | .row e => some e
  | .text _ => none
  | .value _ _ => none
  | .number _ _ => none
  | .status _ => none
  | .stats _ _ => none
  | .unknown _ => none

/-- The log entries printed as rows in an output, in print order. -/
def Out.rows (out : List Out) : List log_entry_t := out.filterMap Out.entry?

def log_export_csv (lb : log_buffer_t) : List Out :=
  if lb.count = 0 then [.text "ERROR: No data to export"]
  else
    [.text "========== CSV EXPORT START ==========", .text "CSV header"]
      ++ (log_iterate lb).map .row
      ++ [.text "========== CSV EXPORT END ==========", .text "INSTRUCTIONS"]

def log_print_all (lb : log_buffer_t) : List Out :=
  if lb.count = 0 then [.text "LOG: Empty"]
  else
    [.number "=== LOG DUMP entries ===" lb.count, .text "table header"]
      ++ (log_iterate lb).map .row
      ++ [.text "======================"]

def log_print_last (lb : log_buffer_t) (n : Nat) : List Out :=
  if lb.count = 0 then [.text "LOG: Empty"]
  else
    let n := if n > lb.count then lb.count else n
    [.number "=== LAST ENTRIES ===" n, .text "table header"]
      ++ (log_visit lb (log_start lb n) n).map .row
      ++ [.text "===================="]

/-- Initial values of the locals of `log_stats`. -/
def log_stats_init : log_stats_t :=
  { min_v := .fin 999, max_v := .fin 0, avg_v := .fin 0,
    min_t := .fin 999, max_t := .fin 0, avg_t := .fin 0,
    total_energy := .fin 0, fault_count := 0 }

/-- One iteration of the loop of `log_stats`. -/
def log_stats_step (acc : log_stats_t) (entry : log_entry_t) : log_stats_t :=
  let v := entry.status.cell_v
  let t := entry.status.cell_temp_c
  { min_v := if v.lt acc.min_v then v else acc.min_v
    max_v := if v.gt acc.max_v then v else acc.max_v
    avg_v := acc.avg_v.add v
    min_t := if t.lt acc.min_t then t else acc.min_t
    max_t := if t.gt acc.max_t then t else acc.max_t
    avg_t := acc.avg_t.add t
    total_energy :=
      acc.total_energy.add
        (entry.status.pack_power.mul ((CFloat.ofNat LOG_INTERVAL_MS).div (.fin 3600000)))
    fault_count :=
      if entry.status.ov_flag || entry.status.uv_flag
          || entry.status.t_warn || entry.status.t_fault
      then (acc.fault_count + 1) % U32_MOD else acc.fault_count }

/-- The values `log_stats` prints for a non-empty log: the loop, then the two divisions. -/
def log_stats_compute (lb : log_buffer_t) : log_stats_t :=
  let acc := (log_iterate lb).foldl log_stats_step log_stats_init
  { acc with
    avg_v := acc.avg_v.div (CFloat.ofNat lb.count)
    avg_t := acc.avg_t.div (CFloat.ofNat lb.count) }

def log_stats (lb : log_buffer_t) : List Out :=
  if lb.count = 0 then [.text "LOG: No data for statistics"]
  else
    let r := log_stats_compute lb
    [.stats r (((CFloat.ofNat r.fault_count).mul (.fin 100)).div (CFloat.ofNat lb.count))]

/-! ## Mutable configuration -/

/-- The mutable file-scope variables of `BMS.c`. -/
structure Globals where
  log_buffer : log_buffer_t
  CELL_OV_LIMIT_V : CFloat
  CELL_UV_LIMIT_V : CFloat
  cal_factor : CFloat
  voltage_offset : CFloat
deriving DecidableEq

/-- Initial values of the file-scope variables. -/
def Globals.defaults : Globals :=
  { log_buffer := log_buffer_init
    CELL_OV_LIMIT_V := .fin (420 / 100)
    CELL_UV_LIMIT_V := .fin 3
    cal_factor := .fin 1
    voltage_offset := .fin 0 }

/-! ## DIGITAL DATA VALIDITY, ADC HELPERS -/

/-- What the hardware and libc deliver during one call of `measure_bms`. -/
structure Hw where
  /-- value of the `rand()` call in `read_digital_data_valid` -/
  rand_valid : Nat
  /-- value of the `rand()` call in `read_temperature_c` -/
  rand_temp : Nat
  /-- result of the `k`-th `adc_read()` of the cycle -/
  adc_read : Nat → Nat
  /-- libm `sqrtf` -/
  sqrtf : CFloat → CFloat

def read_digital_data_valid (hw : Hw) : Bool := hw.rand_valid % 100 < 80

def adc_raw_to_vpin (raw : Nat) : CFloat :=
  let VREF : CFloat := .fin (33 / 10)
  let ADC_MAX : CFloat := .fin 4095
  ((CFloat.ofNat raw).mul VREF).div ADC_MAX

/-- First definition of `vpin_to_vcell` in the source (the second one refers to the
undeclared `R_div_calibrated`). -/
def vpin_to_vcell (g : Globals) (vpin : CFloat) : CFloat :=
  ((((vpin.mul (R_TOP.add R_BOTTOM)).div R_BOTTOM).mul g.cal_factor)).add g.voltage_offset

def vpin_to_pack_v (vpin : CFloat) : CFloat :=
  (vpin.mul (R_TOP.add R_BOTTOM)).div R_BOTTOM

def vpin_to_current (vpin : CFloat) : CFloat :=
  (vpin.sub I_ZERO_V).mul I_SCALE

/-- The `uint16_t raw = adc_read()` of read number `k`. -/
def Hw.raw (hw : Hw) (k : Nat) : Nat := hw.adc_read k % 65536

/-! ## RMS CALCULATIONS

`base` is the number of `adc_read()` calls made before the routine starts. -/

def read_cell_v_rms (hw : Hw) (g : Globals) (base : Nat) : CFloat :=
  let sum_sq : CFloat := (List.range RMS_SAMPLES).foldl
    (fun (sum_sq : CFloat) i =>
      let v := vpin_to_vcell g (adc_raw_to_vpin (hw.raw (base + i)))
      sum_sq.add (v.mul v)) (CFloat.fin 0)
  hw.sqrtf (sum_sq.div (CFloat.ofNat RMS_SAMPLES))

def read_pack_v_rms (hw : Hw) (base : Nat) : CFloat :=
  let sum_sq : CFloat := (List.range RMS_SAMPLES).foldl
    (fun (sum_sq : CFloat) i =>
      let v := vpin_to_pack_v (adc_raw_to_vpin (hw.raw (base + i)))
      sum_sq.add (v.mul v)) (CFloat.fin 0)
  hw.sqrtf (sum_sq.div (CFloat.ofNat RMS_SAMPLES))

def read_pack_i_rms (hw : Hw) (base : Nat) : CFloat :=
  let sum_sq : CFloat := (List.range RMS_SAMPLES).foldl
    (fun (sum_sq : CFloat) i =>
      let c := vpin_to_current (adc_raw_to_vpin (hw.raw (base + i)))
      sum_sq.add (c.mul c)) (CFloat.fin 0)
  hw.sqrtf (sum_sq.div (CFloat.ofNat RMS_SAMPLES))

def calculate_power_rms (hw : Hw) (base : Nat) : CFloat :=
  let sum_sq : CFloat := (List.range RMS_SAMPLES).foldl
    (fun (sum_sq : CFloat) i =>
      let v := vpin_to_pack_v (adc_raw_to_vpin (hw.raw (base + 2 * i)))
      let c := vpin_to_current (adc_raw_to_vpin (hw.raw (base + 2 * i + 1)))
      let p := v.mul c
      sum_sq.add (p.mul p)) (CFloat.fin 0)
  hw.sqrtf (sum_sq.div (CFloat.ofNat RMS_SAMPLES))

def read_temperature_c (hw : Hw) : CFloat :=
  (CFloat.fin 25).add (CFloat.ofNat (hw.rand_temp % 20))

/-! ## THERMAL THROTTLING -/

def calculate_throttle_factor (temp_c : CFloat) : CFloat :=
  if temp_c.lt THROTTLE_START_TEMP then .fin 1
  else if temp_c.ge THROTTLE_MAX_TEMP then .fin 0
  else
    let range := THROTTLE_MAX_TEMP.sub THROTTLE_START_TEMP
    let factor := (CFloat.fin 1).sub ((temp_c.sub THROTTLE_START_TEMP).div range)
    factor

/-- Body of `calculate_throttle_factor` with the result of every float operation rounded to
binary32, for an argument that is a binary32 value. -/
def calculate_throttle_factor_b32 (temp_c : CFloat) : CFloat :=
  if temp_c.lt THROTTLE_START_TEMP then .fin 1
  else if temp_c.ge THROTTLE_MAX_TEMP then .fin 0
  else
    let range := (THROTTLE_MAX_TEMP.sub THROTTLE_START_TEMP).b32
    let factor := ((CFloat.fin 1).sub (((temp_c.sub THROTTLE_START_TEMP).b32).div range).b32).b32
    factor

/-! ## MEASUREMENT -/

def measure_bms (hw : Hw) (g : Globals) (st : bms_status_t) : bms_status_t :=
  let st := { st with data_valid := read_digital_data_valid hw }
  if !st.data_valid then st
  else
    -- Cell voltage
    let vpin := adc_raw_to_vpin (hw.raw 0)
    let st := { st with cell_v := vpin_to_vcell g vpin }
    let st := { st with voltage_pin := vpin }
    let st := { st with cell_v_rms := read_cell_v_rms hw g 1 }
    -- Pack voltage
    let st := { st with pack_v := vpin_to_pack_v (adc_raw_to_vpin (hw.raw 101)) }
    let st := { st with pack_v_rms := read_pack_v_rms hw 102 }
    -- Pack current
    let st := { st with pack_i := vpin_to_current (adc_raw_to_vpin (hw.raw 202)) }
    let st := { st with pack_i_rms := read_pack_i_rms hw 203 }
    -- Power
    let st := { st with pack_power := st.pack_v.mul st.pack_i }
    let st := { st with pack_power_rms := calculate_power_rms hw 303 }
    -- Temperature
    let st := { st with cell_temp_c := read_temperature_c hw }
    -- Flags
    let st := { st with ov_flag := st.cell_v.gt g.CELL_OV_LIMIT_V }
    let st := { st with uv_flag := st.cell_v.lt g.CELL_UV_LIMIT_V }
    let st := { st with t_warn := st.cell_temp_c.gt TEMP_WARN_C }
    let st := { st with t_fault := st.cell_temp_c.gt TEMP_SHUT_C }
    -- Thermal throttling
    { st with throttle_factor := calculate_throttle_factor st.cell_temp_c }

/-! ## SERIAL COMMAND HANDLER -/

/-- The test `strcmp(line, lit) == 0`. -/
def strcmp_eq (line : List Char) (lit : String) : Bool := line == lit.toList

/-- The test `strncmp(line, lit, n) == 0`, for a literal `lit` of `n` characters. -/
def strncmp_eq (line : List Char) (lit : String) (n : Nat) : Bool :=
  line.take n == lit.toList

/-- Conversion of an `int` to `uint32_t`. -/
def int_to_u32 (z : Int) : Nat := (z % (U32_MOD : Int)).toNat

/-- Body of `process_command`; `strtof s` and `atoi s` are the libc results on the
string `s` (the `endptr` argument of `strtof` is `NULL`). -/
def process_command (strtof : List Char → CFloat) (atoi : List Char → Int)
    (line : List Char) (st : bms_status_t) (g : Globals) : Globals × List Out :=
  if strcmp_eq line "READ" then (g, [.status st])
  else if strcmp_eq line "LOG" || strcmp_eq line "LOGALL" then
    (g, log_print_all g.log_buffer)
  else if strcmp_eq line "LOGCSV" || strcmp_eq line "CSV" then
    (g, log_export_csv g.log_buffer)
  else if strncmp_eq line "LOGLAST " 8 then
    let n := int_to_u32 (atoi (line.drop 8))
    if n > 0 then (g, log_print_last g.log_buffer n)
    else (g, [.text "ERR: invalid number"])
  else if strcmp_eq line "LOGSTATS" then (g, log_stats g.log_buffer)
  else if strcmp_eq line "LOGCLEAR" then
    ({ g with log_buffer := log_clear g.log_buffer }, [.text "LOG: Cleared"])
  else if strncmp_eq line "SETCAL " 7 then
    let val := strtof (line.drop 7)
    if val.gt (.fin (1 / 2)) && val.lt (.fin 2) then
      ({ g with cal_factor := val }, [.value "OK: cal_factor=" val])
    else (g, [.text "ERR: cal value out of range"])
  else if strncmp_eq line "CAL " 4 then
    let delta := strtof (line.drop 4)
    let cal_factor := g.cal_factor.add delta
    let cal_factor := if cal_factor.lt (.fin (1 / 2)) then .fin (1 / 2) else cal_factor
    let cal_factor := if cal_factor.gt (.fin 2) then .fin 2 else cal_factor
    ({ g with cal_factor := cal_factor }, [.value "OK: cal_factor=" cal_factor])
  else if strncmp_eq line "SETOFFSET " 10 then
    let val := strtof (line.drop 10)
    if val.ge (.fin (-1)) && val.le (.fin 1) then
      ({ g with voltage_offset := val }, [.value "OK: voltage_offset=" val])
    else (g, [.text "ERR: offset out of range"])
  else if strncmp_eq line "OFFSET " 7 then
    let delta := strtof (line.drop 7)
    let voltage_offset := g.voltage_offset.add delta
    let voltage_offset :=
      if voltage_offset.lt (.fin (-1)) then .fin (-1) else voltage_offset
    let voltage_offset :=
      if voltage_offset.gt (.fin 1) then .fin 1 else voltage_offset
    ({ g with voltage_offset := voltage_offset }, [.value "OK: voltage_offset=" voltage_offset])
  else if strncmp_eq line "SETOV " 6 then
    let val := strtof (line.drop 6)
    if val.gt (.fin (5 / 2)) && val.lt (.fin 5) then
      ({ g with CELL_OV_LIMIT_V := val }, [.value "OK: OV_LIMIT=" val])
    else (g, [.text "ERR: OV value out of range"])
  else if strncmp_eq line "SETUV " 6 then
    let val := strtof (line.drop 6)
    if val.gt (.fin 2) && val.lt (.fin 4) then
      ({ g with CELL_UV_LIMIT_V := val }, [.value "OK: UV_LIMIT=" val])
    else (g, [.text "ERR: UV value out of range"])
  else if strcmp_eq line "HELP" then (g, [.text "=== BMS COMMANDS ==="])
  else (g, [.unknown line])

/-- A sequence of commands, each with the status it is shown, run from `g`;
the resulting globals. -/
def run_commands (strtof : List Char → CFloat) (atoi : List Char → Int)
    (cmds : List (List Char × bms_status_t)) (g : Globals) : Globals :=
  cmds.foldl (fun g c => (process_command strtof atoi c.1 c.2 g).1) g

/-- A sequence of `log_add_entry` calls, given as (timestamp, status) pairs. -/
def log_add_entries (lb : log_buffer_t) (xs : List (Nat × bms_status_t)) : log_buffer_t :=
  xs.foldl (fun lb x => log_add_entry lb x.1 x.2) lb

/-- Size of the line buffer of `poll_serial_commands`. -/
def CMD_BUF_SIZE : Nat := 64

/-- Body of `poll_serial_commands`.  The first list holds the characters that
`getchar_timeout_us(0)` delivers before it reports a timeout; `buf` holds the `pos`
characters of the pending line (the `static` locals `buf` and `pos`).  The line handed to
`process_command` is the C string in `buf`, which ends at the first NUL character.
Returns the pending line, the globals and the output. -/
def poll_serial_commands (strtof : List Char → CFloat) (atoi : List Char → Int)
    (st : bms_status_t) : List Char → List Char → Globals → List Char × Globals × List Out
  | [], buf, g => (buf, g, [])
  | c :: rest, buf, g =>
    if c = Char.ofNat 13 ∨ c = Char.ofNat 10 then
      if buf.length > 0 then
        let line := buf.takeWhile (fun x => x ≠ Char.ofNat 0)
        let r := process_command strtof atoi line st g
        let r2 := poll_serial_commands strtof atoi st rest [] r.1
        (r2.1, r2.2.1, [Out.text (String.mk (">>> ".toList ++ line))] ++ r.2 ++ r2.2.2)
      else poll_serial_commands strtof atoi st rest buf g
    else if buf.length < CMD_BUF_SIZE - 1 then
      poll_serial_commands strtof atoi st rest (buf ++ [c]) g
    else poll_serial_commands strtof atoi st rest buf g

/-- The variables that live across iterations of the loop of `main`: the local `bms`,
the file-scope variables, and the pending line of `poll_serial_commands`. -/
structure main_state where
  bms : bms_status_t
  g : Globals
  buf : List Char

/-- State on entry to the loop of `main`: `bms = {0}; bms.data_valid = true`. -/
def main_init : main_state :=
  { bms := { bms_status_zero with data_valid := true }, g := Globals.defaults, buf := [] }

/-- The step `measure_bms(&bms); if (bms.data_valid) log_add_entry(&bms);` of one
iteration of `main`; `now` is the clock read by `log_add_entry`. -/
def main_measure_and_log (hw : Hw) (now : Nat) (s : main_state) : main_state :=
  let bms := measure_bms hw s.g s.bms
  if bms.data_valid then
    { s with bms := bms, g := { s.g with log_buffer := log_add_entry s.g.log_buffer now bms } }
  else { s with bms := bms }

/-- One iteration of the loop of `main`: measure, log when valid, then
`poll_serial_commands` on the characters received so far (LED and sleep left out). -/
def main_cycle (strtof : List Char → CFloat) (atoi : List Char → Int)
    (hw : Hw) (now : Nat) (chars : List Char) (s : main_state) : main_state × List Out :=
  let s1 := main_measure_and_log hw now s
  let out1 : List Out :=
    if s1.bms.data_valid then [.status s1.bms, .number "Log" s1.g.log_buffer.count]
    else [.text "WARNING: Wrong digital value given - data not valid!"]
  let r := poll_serial_commands strtof atoi s1.bms chars s1.buf s1.g
  ({ bms := s1.bms, g := r.2.1, buf := r.1 }, out1 ++ r.2.2)

/-- States of the loop of `main` reachable from `main_init` by whole cycles, whatever
the hardware delivers and whatever is received on the serial line. -/
inductive MainReach (strtof : List Char → CFloat) (atoi : List Char → Int) :
    main_state → Prop where
  | init : MainReach strtof atoi main_init
  | cycle (s : main_state) (hw : Hw) (now : Nat) (chars : List Char) :
      MainReach strtof atoi s → MainReach strtof atoi (main_cycle strtof atoi hw now chars s).1

/-! ## Value ranges of the data model -/

/-- A finite value strictly between `lo` and `hi`. -/
def CFloat.inOpen : CFloat → ℚ → ℚ → Prop
  | .fin q, lo, hi => lo < q ∧ q < hi
  | _, _, _ => False

/-- A finite value between `lo` and `hi`, bounds included. -/
def CFloat.inClosed : CFloat → ℚ → ℚ → Prop
  | .fin q, lo, hi => lo ≤ q ∧ q ≤ hi
  | _, _, _ => False

/-- Range invariant of the calibration store as the code maintains it: the two
delta-adjusted fields range over closed intervals, the two limits over open ones. -/
def CalInv (g : Globals) : Prop :=
  g.cal_factor.inClosed (1 / 2) 2 ∧ g.voltage_offset.inClosed (-1) 1
    ∧ g.CELL_OV_LIMIT_V.inOpen (5 / 2) 5 ∧ g.CELL_UV_LIMIT_V.inOpen 2 4

/-- Range invariant with the declared ranges of the data model: `cal_factor` in the open
interval (0.5, 2.0), `voltage_offset` in [-1.0, 1.0], `ov_limit` in (2.5, 5.0),
`uv_limit` in (2.0, 4.0). -/
def CalInvDeclared (g : Globals) : Prop :=
  g.cal_factor.inOpen (1 / 2) 2 ∧ g.voltage_offset.inClosed (-1) 1
    ∧ g.CELL_OV_LIMIT_V.inOpen (5 / 2) 5 ∧ g.CELL_UV_LIMIT_V.inOpen 2 4

/-- The line is a `CAL` or `OFFSET` command whose argument `strtof` converts to NaN. -/
def nan_delta (strtof : List Char → CFloat) (line : List Char) : Prop :=
  (strncmp_eq line "CAL " 4 = true ∧ strtof (line.drop 4) = .nan)
    ∨ (strncmp_eq line "OFFSET " 7 = true ∧ strtof (line.drop 7) = .nan)

/-- Clamping of a rational into `[lo, hi]`. -/
def clamp_spec (x lo hi : ℚ) : ℚ := max lo (min hi x)

/-- Values of libc `strtof` on the argument strings used in the examples. -/
def strtof_sample (s : List Char) : CFloat :=
  if s = "1.5".toList then .fin (3 / 2)
  else if s = "2.5".toList then .fin (5 / 2)
  else if s = "5".toList then .fin 5
  else if s = "-1".toList then .fin (-1)
  else if s = "nan".toList then .nan
  else .fin 0

/-- Values of libc `atoi` on the argument strings used in the examples. -/
def atoi_sample (s : List Char) : Int :=
  if s = "3".toList then 3
  else if s = "-5".toList then -5
  else 0

/-- The derating curve in the words of the specification: 1.0 below 45.0, 0.0 from 55.0
on, linear interpolation `1 - (temp - START)/(MAX - START)` in between. -/
def throttle_curve_spec (t : ℚ) : ℚ :=
  if t < 45 then 1 else if 55 ≤ t then 0 else 1 - (t - 45) / (55 - 45)

/-- A sample cycle of the hardware: the validity gate passes, every ADC code is 4095 and
`rand() % 20` is 0.  (`sqrtf` only feeds the RMS fields; it is a stub here.) -/
def hw_full_scale : Hw :=
  { rand_valid := 0, rand_temp := 0, adc_read := fun _ => 4095, sqrtf := fun _ => .fin 0 }

/-- A sample cycle of the hardware: the validity gate passes, every ADC code is 0 and
`rand() % 20` is 0.  (`sqrtf` only feeds the RMS fields; it is a stub here.) -/
def hw_zero_scale : Hw :=
  { rand_valid := 0, rand_temp := 0, adc_read := fun _ => 0, sqrtf := fun _ => .fin 0 }

/-- A calibration state inside the declared ranges under which the full-scale ADC code
4095 converts to a cell voltage of exactly 4.2001 V. -/
def globals_sample : Globals :=
  { Globals.defaults with
    cal_factor := .fin (1 / 2)
    voltage_offset := .fin (42001 / 10000 - 4851 / 940) }

/-- The all-zero status with `cell_v` set to `v`. -/
def status_with_cell_v (v : ℚ) : bms_status_t := { bms_status_zero with cell_v := .fin v }

/-- Three snapshots with cell voltages 3.0, 4.0 and 3.5, stamped one second apart. -/
def stats_sample : List (Nat × bms_status_t) :=
  [(0, status_with_cell_v 3), (1000, status_with_cell_v 4), (2000, status_with_cell_v (7 / 2))]

/-- An entry counts as a fault event when one of its four flags is set. -/
def fault_event (e : log_entry_t) : Bool :=
  e.status.ov_flag || e.status.uv_flag || e.status.t_warn || e.status.t_fault

/-- A square root that is exact on squares of rationals (the root of numerator and
denominator), NaN on negative arguments.  Stands in for libm `sqrtf` in closed
examples. -/
def sqrtf_exact : CFloat → CFloat
  | .fin q =>
      if q < 0 then .nan else .fin ((Nat.sqrt q.num.natAbs : ℚ) / (Nat.sqrt q.den : ℚ))
  | .pinf => .pinf
  | .ninf => .nan
  | .nan => .nan

/-- A sample cycle of the hardware in which the validity gate fails
(`rand() % 100` is 80). -/
def hw_invalid : Hw :=
  { rand_valid := 80, rand_temp := 0, adc_read := fun _ => 0, sqrtf := fun _ => .fin 0 }

/-- The default globals with a log holding one entry (cell voltage 3.5 V, stamped
1000 ms). -/
def globals_one_entry : Globals :=
  { Globals.defaults with
    log_buffer := log_add_entry log_buffer_init 1000 (status_with_cell_v (7 / 2)) }

/-- The line passes one of the tests of the `if` cascade of `process_command`. -/
def known_command (line : List Char) : Bool :=
  strcmp_eq line "READ" || strcmp_eq line "LOG" || strcmp_eq line "LOGALL"
    || strcmp_eq line "LOGCSV" || strcmp_eq line "CSV" || strncmp_eq line "LOGLAST " 8
    || strcmp_eq line "LOGSTATS" || strcmp_eq line "LOGCLEAR"
    || strncmp_eq line "SETCAL " 7 || strncmp_eq line "CAL " 4
    || strncmp_eq line "SETOFFSET " 10 || strncmp_eq line "OFFSET " 7
    || strncmp_eq line "SETOV " 6 || strncmp_eq line "SETUV " 6 || strcmp_eq line "HELP"

/-- Values of libc `strtof` on the argument strings `2.6` and `3.9`. -/
def strtof_limits (s : List Char) : CFloat :=
  if s = "2.6".toList then .fin (26 / 10)
  else if s = "3.9".toList then .fin (39 / 10)
  else .fin 0

/-- The globals after `SETOV 2.6` and `SETUV 3.9` from the defaults. -/
def globals_crossed : Globals :=
  { Globals.defaults with CELL_OV_LIMIT_V := .fin (26 / 10), CELL_UV_LIMIT_V := .fin (39 / 10) }

/-- A sample cycle of the hardware: the validity gate passes and every ADC code is 1365
(a pin voltage of 1.1 V, a cell voltage of about 3.44 V with the default calibration). -/
def hw_third_scale : Hw :=
  { rand_valid := 0, rand_temp := 0, adc_read := fun _ => 1365, sqrtf := fun _ => .fin 0 }

/-- The snapshots stamped 0 .. 104 (all-zero statuses). -/
def stamped_sample : List (Nat × bms_status_t) :=
  (List.range 105).map fun i => (i, bms_status_zero)

/-- The log after the 105 appends of `stamped_sample`: full, and wrapped by five slots. -/
def log_wrapped : log_buffer_t := log_add_entries log_buffer_init stamped_sample

/-- Four snapshots stamped one second apart: no flag, `ov_flag` and `t_warn` together,
`uv_flag` alone, no flag. -/
def faults_sample : List (Nat × bms_status_t) :=
  [(0, bms_status_zero),
   (1000, { bms_status_zero with ov_flag := true, t_warn := true }),
   (2000, { bms_status_zero with uv_flag := true }),
   (3000, bms_status_zero)]

/-! ## Circular log: representation invariant -/

/-- Representation invariant of the ring. -/
structure LogInv (lb : log_buffer_t) : Prop where
  len : lb.entries.length = LOG_SIZE
  widx : lb.write_index < LOG_SIZE
  cnt : lb.count ≤ LOG_SIZE
  cursor : lb.count < LOG_SIZE → lb.write_index = lb.count

/-- States reachable from the zero-initialised log by `log_add_entry` and `log_clear`. -/
inductive LogReach : log_buffer_t → Prop where
  | init : LogReach log_buffer_init
  | add (lb : log_buffer_t) (now : Nat) (status : bms_status_t) :
      LogReach lb → LogReach (log_add_entry lb now status)
  | clear (lb : log_buffer_t) : LogReach lb → LogReach (log_clear lb)

/-- Slot of the `i`-th oldest entry, for a buffer satisfying the invariant. -/
def log_slot (lb : log_buffer_t) (i : Nat) : Nat :=
  if lb.count < LOG_SIZE then i else (lb.write_index + i) % LOG_SIZE

/-- Abstract bounded queue step: append, dropping the oldest element when full. -/
def queue_push (q : List log_entry_t) (x : log_entry_t) : List log_entry_t :=
  (if q.length < LOG_SIZE then q else q.tail) ++ [x]

/-- Every stored entry of the log (every entry of the ordered iteration) was a valid
snapshot, and the ring invariant holds. -/
def LogValid (lb : log_buffer_t) : Prop :=
  LogInv lb ∧ ∀ e ∈ log_iterate lb, e.status.data_valid = true

/-! ## Circular log: invariant preservation -/

theorem logInv_init : LogInv log_buffer_init :=
  ⟨by simp [log_buffer_init], by simp [log_buffer_init, LOG_SIZE],
   by simp [log_buffer_init], by intro _; rfl⟩

theorem logInv_add (lb : log_buffer_t) (now : Nat) (status : bms_status_t)
    (h : LogInv lb) : LogInv (log_add_entry lb now status) := by
  obtain ⟨h1, h2, h3, h4⟩ := h
  refine ⟨by simp [log_add_entry, h1], ?_, ?_, ?_⟩
  · simp only [log_add_entry, LOG_SIZE, U32_MOD] at *; omega
  · simp only [log_add_entry, LOG_SIZE] at *; split <;> omega
  · simp only [log_add_entry, LOG_SIZE, U32_MOD] at *
    split <;> omega

theorem logInv_clear (lb : log_buffer_t) (h : LogInv lb) : LogInv (log_clear lb) :=
  ⟨h.len, by simp [log_clear, LOG_SIZE], by simp [log_clear], by intro _; rfl⟩

theorem logInv_of_reach {lb : log_buffer_t} (h : LogReach lb) : LogInv lb := by
  induction h with
  | init => exact logInv_init
  | add lb now status _ ih => exact logInv_add lb now status ih
  | clear lb _ ih => exact logInv_clear lb ih

/-! ## Circular log: ordered contents -/

theorem getD_set_eq {α : Type} (l : List α) (i j : Nat) (x d : α) :
    (l.set i x).getD j d = if i = j ∧ i < l.length then x else l.getD j d := by
  simp only [List.getD_eq_getElem?_getD, List.getElem?_set]
  by_cases hij : i = j
  · subst hij
    by_cases hlt : i < l.length
    · simp [hlt]
    · simp [hlt, List.getElem?_eq_none (not_lt.mp hlt)]
  · simp [hij]

theorem log_iterate_eq (lb : log_buffer_t) (h : LogInv lb) :
    log_iterate lb
      = (List.range lb.count).map fun i => lb.entries.getD (log_slot lb i) log_entry_zero := by
  obtain ⟨_, h2, h3, h4⟩ := h
  unfold log_iterate log_visit
  apply List.map_congr_left
  intro i hi
  rw [List.mem_range] at hi
  congr 1
  simp only [log_start, log_slot, LOG_SIZE, U32_MOD] at *
  split <;> omega

theorem log_iterate_length (lb : log_buffer_t) : (log_iterate lb).length = lb.count := by
  simp [log_iterate, log_visit]

theorem log_iterate_add_nonfull (lb : log_buffer_t) (now : Nat) (st : bms_status_t)
    (h : LogInv lb) (hc : lb.count < LOG_SIZE) :
    log_iterate (log_add_entry lb now st) = log_iterate lb ++ [⟨now, st⟩] := by
  rw [log_iterate_eq _ (logInv_add lb now st h), log_iterate_eq _ h]
  obtain ⟨h1, h2, h3, h4⟩ := h
  have hw := h4 hc
  have hcnt : (log_add_entry lb now st).count = lb.count + 1 := by
    simp [log_add_entry, hc]
  rw [hcnt, List.range_succ, List.map_append]
  congr 1
  · apply List.map_congr_left
    intro i hi
    rw [List.mem_range] at hi
    have e1 : log_slot (log_add_entry lb now st) i = i := by
      simp only [log_slot, log_add_entry, LOG_SIZE, U32_MOD] at *
      split_ifs <;> omega
    have e2 : log_slot lb i = i := by simp [log_slot, hc]
    rw [e1, e2]
    simp only [log_add_entry, getD_set_eq]
    rw [if_neg]
    omega
  · have e1 : log_slot (log_add_entry lb now st) lb.count = lb.count := by
      simp only [log_slot, log_add_entry, LOG_SIZE, U32_MOD] at *
      split_ifs <;> omega
    simp only [List.map_cons, List.map_nil, e1]
    simp only [log_add_entry, getD_set_eq]
    rw [if_pos]
    exact ⟨hw, by rw [h1, hw]; exact hc⟩

theorem log_iterate_add_full (lb : log_buffer_t) (now : Nat) (st : bms_status_t)
    (h : LogInv lb) (hc : lb.count = LOG_SIZE) :
    log_iterate (log_add_entry lb now st) = (log_iterate lb).tail ++ [⟨now, st⟩] := by
  rw [log_iterate_eq _ (logInv_add lb now st h), log_iterate_eq _ h]
  obtain ⟨h1, h2, h3, h4⟩ := h
  have hcnt : (log_add_entry lb now st).count = LOG_SIZE := by
    simp [log_add_entry, hc]
  rw [hcnt, hc]
  apply List.ext_getElem
  · simp [LOG_SIZE]
  · intro i hi1 hi2
    simp only [List.length_map, List.length_range] at hi1
    by_cases hlast : i = LOG_SIZE - 1
    · rw [List.getElem_append_right (by simp [LOG_SIZE, hlast])]
      have e1 : log_slot (log_add_entry lb now st) i = lb.write_index := by
        simp only [log_slot, log_add_entry, LOG_SIZE, U32_MOD, hc] at *
        simp only [lt_irrefl, if_false]
        omega
      simp only [List.getElem_map, List.getElem_range, e1]
      simp [log_add_entry, getD_set_eq, h1, h2]
    · have hi3 : i < LOG_SIZE - 1 := by omega
      rw [List.getElem_append_left (by simp [LOG_SIZE] at *; omega)]
      have e1 : log_slot (log_add_entry lb now st) i = log_slot lb (i + 1) := by
        simp only [log_slot, log_add_entry, LOG_SIZE, U32_MOD, hc] at *
        simp only [lt_irrefl, if_false]
        omega
      have e2 : log_slot lb (i + 1) ≠ lb.write_index := by
        simp only [log_slot, LOG_SIZE, hc] at *
        simp only [lt_irrefl, if_false]
        omega
      simp only [List.getElem_map, List.getElem_range, List.getElem_tail, e1]
      simp only [log_add_entry, getD_set_eq]
      rw [if_neg]
      intro hcon
      exact e2 hcon.1.symm

theorem log_iterate_add (lb : log_buffer_t) (now : Nat) (st : bms_status_t) (h : LogInv lb) :
    log_iterate (log_add_entry lb now st) = queue_push (log_iterate lb) ⟨now, st⟩ := by
  unfold queue_push
  rw [log_iterate_length]
  by_cases hc : lb.count < LOG_SIZE
  · rw [if_pos hc]; exact log_iterate_add_nonfull lb now st h hc
  · rw [if_neg hc]; exact log_iterate_add_full lb now st h (le_antisymm h.cnt (not_lt.mp hc))

/-! ## Printed rows -/

theorem rows_map_row (es : List log_entry_t) : Out.rows (es.map Out.row) = es := by
  induction es with
  | nil => rfl
  | cons e es ih =>
    simp only [Out.rows, List.map_cons, List.filterMap_cons, Out.entry?] at ih ⊢
    rw [ih]

theorem log_iterate_nil (lb : log_buffer_t) (h : lb.count = 0) : log_iterate lb = [] := by
  simp [log_iterate, log_visit, h]

theorem rows_log_print_all (lb : log_buffer_t) :
    Out.rows (log_print_all lb) = log_iterate lb := by
  unfold log_print_all
  split
  · rename_i h
    rw [log_iterate_nil lb h]; rfl
  · have := rows_map_row (log_iterate lb)
    simp only [Out.rows] at this ⊢
    simp [List.filterMap_append, Out.entry?, this]

theorem rows_log_export_csv (lb : log_buffer_t) :
    Out.rows (log_export_csv lb) = log_iterate lb := by
  unfold log_export_csv
  split
  · rename_i h
    rw [log_iterate_nil lb h]; rfl
  · have := rows_map_row (log_iterate lb)
    simp only [Out.rows] at this ⊢
    simp [List.filterMap_append, Out.entry?, this]

theorem rows_log_print_last (lb : log_buffer_t) (n : Nat) (h : lb.count ≠ 0) :
    Out.rows (log_print_last lb n)
      = log_visit lb (log_start lb (if n > lb.count then lb.count else n))
          (if n > lb.count then lb.count else n) := by
  unfold log_print_last
  rw [if_neg h]
  have := rows_map_row
    (log_visit lb (log_start lb (if n > lb.count then lb.count else n))
      (if n > lb.count then lb.count else n))
  simp only [Out.rows] at this ⊢
  simp [List.filterMap_append, Out.entry?, this]

/-! ## Circular log: sequences of appends -/

theorem queue_push_length_le (q : List log_entry_t) (x : log_entry_t)
    (h : q.length ≤ LOG_SIZE) : (queue_push q x).length ≤ LOG_SIZE := by
  unfold queue_push
  split
  · simp; omega
  · simp [LOG_SIZE] at *; omega

theorem queue_fold (es q : List log_entry_t) (h : q.length ≤ LOG_SIZE) :
    es.foldl queue_push q = (q ++ es).drop ((q ++ es).length - LOG_SIZE) := by
  induction es generalizing q with
  | nil =>
    have : q.length - LOG_SIZE = 0 := by omega
    simp [this]
  | cons x es ih =>
    rw [List.foldl_cons, ih _ (queue_push_length_le q x h)]
    unfold queue_push
    by_cases hq : q.length < LOG_SIZE
    · simp [hq]
    · rw [if_neg hq]
      have hlen : q.length = LOG_SIZE := by omega
      cases q with
      | nil => simp [LOG_SIZE] at hlen
      | cons a t =>
        simp only [List.length_cons] at hlen
        have e1 : ((a :: t) ++ x :: es).length - LOG_SIZE = (es.length + 1 - 1) + 1 := by
          simp; omega
        have e2 : ((a :: t).tail ++ [x] ++ es).length - LOG_SIZE = es.length + 1 - 1 := by
          simp; omega
        rw [e1, e2]
        simp

theorem logInv_add_entries (xs : List (Nat × bms_status_t)) (lb : log_buffer_t)
    (h : LogInv lb) : LogInv (log_add_entries lb xs) := by
  induction xs generalizing lb with
  | nil => exact h
  | cons x xs ih => exact ih _ (logInv_add lb x.1 x.2 h)

theorem log_iterate_add_entries (xs : List (Nat × bms_status_t)) (lb : log_buffer_t)
    (h : LogInv lb) :
    log_iterate (log_add_entries lb xs)
      = (xs.map fun x => (⟨x.1, x.2⟩ : log_entry_t)).foldl queue_push (log_iterate lb) := by
  induction xs generalizing lb with
  | nil => rfl
  | cons x xs ih =>
    have := ih _ (logInv_add lb x.1 x.2 h)
    simp only [log_add_entries, List.foldl_cons, List.map_cons] at this ⊢
    rw [this, log_iterate_add lb x.1 x.2 h]

theorem log_iterate_init : log_iterate log_buffer_init = [] := by
  simp [log_iterate, log_visit, log_buffer_init]

theorem log_iterate_fresh (xs : List (Nat × bms_status_t)) :
    log_iterate (log_add_entries log_buffer_init xs)
      = (xs.drop (xs.length - LOG_SIZE)).map fun x => (⟨x.1, x.2⟩ : log_entry_t) := by
  rw [log_iterate_add_entries xs _ logInv_init, log_iterate_init,
    queue_fold _ _ (by simp)]
  simp [List.map_drop]

theorem log_count_fresh (xs : List (Nat × bms_status_t)) :
    (log_add_entries log_buffer_init xs).count = min xs.length LOG_SIZE := by
  rw [← log_iterate_length, log_iterate_fresh]
  simp
  omega

theorem logReach_add_entries (xs : List (Nat × bms_status_t)) (lb : log_buffer_t)
    (h : LogReach lb) : LogReach (log_add_entries lb xs) := by
  induction xs generalizing lb with
  | nil => exact h
  | cons x xs ih => exact ih _ (LogReach.add lb x.1 x.2 h)

theorem log_write_index_add_entries (xs : List (Nat × bms_status_t)) (lb : log_buffer_t)
    (h : lb.write_index < LOG_SIZE) :
    (log_add_entries lb xs).write_index = (lb.write_index + xs.length) % LOG_SIZE := by
  induction xs generalizing lb with
  | nil =>
    simp only [log_add_entries, List.foldl_nil, List.length_nil, Nat.add_zero]
    exact (Nat.mod_eq_of_lt h).symm
  | cons x xs ih =>
    have h1 : (log_add_entry lb x.1 x.2).write_index < LOG_SIZE := by
      simp only [log_add_entry, LOG_SIZE, U32_MOD]; omega
    have := ih _ h1
    simp only [log_add_entries, List.foldl_cons, List.length_cons] at this ⊢
    rw [this]
    simp only [log_add_entry, LOG_SIZE, U32_MOD] at *
    omega

theorem log_wrapped_reach : LogReach log_wrapped :=
  logReach_add_entries stamped_sample log_buffer_init LogReach.init

theorem log_wrapped_count : log_wrapped.count = LOG_SIZE := by
  unfold log_wrapped
  rw [log_count_fresh]
  simp [stamped_sample, LOG_SIZE]

theorem log_wrapped_write_index : log_wrapped.write_index = 5 := by
  unfold log_wrapped
  rw [log_write_index_add_entries _ _ (by simp [log_buffer_init, LOG_SIZE])]
  simp [stamped_sample, log_buffer_init, LOG_SIZE]

theorem log_wrapped_iterate :
    log_iterate log_wrapped
      = (List.range' 5 100).map fun i => (⟨i, bms_status_zero⟩ : log_entry_t) := by
  unfold log_wrapped
  rw [log_iterate_fresh]
  simp only [stamped_sample, List.length_map, List.length_range, LOG_SIZE]
  decide

/-! ## Claims on the circular log -/

/-- C1: after appending any sequence `xs` of snapshots to the zero-initialised log, the log
holds `min xs.length LOG_SIZE` entries and ordered iteration (the loop of `log_print_all`,
`log_export_csv`) yields exactly the last `min xs.length LOG_SIZE` appended snapshots in
append order; with `LOG_SIZE + 5` appends that is `LOG_SIZE` entries, the appended
snapshots at zero-based positions `5 .. LOG_SIZE + 4`. -/
theorem C1_append_keeps_last (xs : List (Nat × bms_status_t)) :
    (log_add_entries log_buffer_init xs).count = min xs.length LOG_SIZE
    ∧ log_iterate (log_add_entries log_buffer_init xs)
        = (xs.drop (xs.length - min xs.length LOG_SIZE)).map
            (fun x => (⟨x.1, x.2⟩ : log_entry_t))
    ∧ Out.rows (log_print_all (log_add_entries log_buffer_init xs))
        = log_iterate (log_add_entries log_buffer_init xs)
    ∧ Out.rows (log_export_csv (log_add_entries log_buffer_init xs))
        = log_iterate (log_add_entries log_buffer_init xs)
    ∧ (xs.length = LOG_SIZE + 5 →
        (log_add_entries log_buffer_init xs).count = LOG_SIZE
        ∧ log_iterate (log_add_entries log_buffer_init xs)
            = (xs.drop 5).map (fun x => (⟨x.1, x.2⟩ : log_entry_t))) := by
  have hc := log_count_fresh xs
  have hi := log_iterate_fresh xs
  have hd : xs.length - min xs.length LOG_SIZE = xs.length - LOG_SIZE := by omega
  refine ⟨hc, by rw [hd]; exact hi, ?_, ?_, ?_⟩
  · exact rows_log_print_all _
  · exact rows_log_export_csv _
  · intro hl
    refine ⟨by rw [hc, hl]; simp, ?_⟩
    rw [hi, hl]
    simp

/-- C1 (instance): 105 snapshots stamped 0 .. 104 appended to the empty log leave the
snapshots stamped 5 .. 104, in that order. -/
theorem C1_append_keeps_last_witness :
    ((List.range 105).map fun i => (i, bms_status_zero)).length = LOG_SIZE + 5
    ∧ (log_add_entries log_buffer_init
          ((List.range 105).map fun i => (i, bms_status_zero))).count = LOG_SIZE
    ∧ log_iterate (log_add_entries log_buffer_init
          ((List.range 105).map fun i => (i, bms_status_zero)))
        = ((((List.range 105).map fun i => (i, bms_status_zero)).drop 5).map
            (fun x => (⟨x.1, x.2⟩ : log_entry_t))) :=
  ⟨by simp [LOG_SIZE],
   (C1_append_keeps_last ((List.range 105).map fun i => (i, bms_status_zero))).2.2.2.2
     (by simp [LOG_SIZE])⟩

/-- C8: in every log state reachable by `log_add_entry` and `log_clear`, the ordered
contents after one more `log_add_entry` are the old ordered contents with the new entry
at the end when the log is not full, and the old ordered contents without their first
(oldest) element, with the new entry at the end, when the log is full. -/
theorem C8_append_evicts_oldest (lb : log_buffer_t) (now : Nat) (st : bms_status_t)
    (h : LogReach lb) :
    (lb.count < LOG_SIZE ∨ lb.count = LOG_SIZE)
    ∧ (lb.count < LOG_SIZE →
        log_iterate (log_add_entry lb now st) = log_iterate lb ++ [⟨now, st⟩])
    ∧ (lb.count = LOG_SIZE →
        log_iterate (log_add_entry lb now st) = (log_iterate lb).tail ++ [⟨now, st⟩]) := by
  have hinv := logInv_of_reach h
  refine ⟨?_, ?_, ?_⟩
  · have := hinv.cnt
    omega
  · exact log_iterate_add_nonfull lb now st hinv
  · exact log_iterate_add_full lb now st hinv

/-- C8 (instance): the log is full and wrapped after 105 appends stamped 0 .. 104 and
holds the entries stamped 5 .. 104; one more append, stamped 105, evicts exactly the
entry stamped 5: the ordered contents are then the entries stamped 6 .. 105. -/
theorem C8_append_evicts_oldest_witness :
    LogReach log_wrapped
    ∧ log_wrapped.count = LOG_SIZE
    ∧ log_iterate log_wrapped
        = (List.range' 5 100).map (fun i => (⟨i, bms_status_zero⟩ : log_entry_t))
    ∧ log_iterate (log_add_entry log_wrapped 105 bms_status_zero)
        = (List.range' 6 100).map (fun i => (⟨i, bms_status_zero⟩ : log_entry_t)) := by
  have h := (C8_append_evicts_oldest log_wrapped 105 bms_status_zero
    log_wrapped_reach).2.2 log_wrapped_count
  refine ⟨log_wrapped_reach, log_wrapped_count, log_wrapped_iterate, ?_⟩
  rw [h, log_wrapped_iterate]
  decide

theorem log_iterate_head (lb : log_buffer_t) (h : LogInv lb) (hpos : 0 < lb.count) :
    (log_iterate lb).head?
      = some (lb.entries.getD (if lb.count < LOG_SIZE then 0 else lb.write_index)
          log_entry_zero) := by
  rw [log_iterate_eq lb h]
  obtain ⟨k, hk⟩ : ∃ k, lb.count = k + 1 := ⟨lb.count - 1, by omega⟩
  have hw := h.widx
  rw [hk, List.range_succ_eq_map]
  simp only [List.map_cons, List.head?_cons, log_slot, hk]
  congr 2
  split
  · rfl
  · simp only [LOG_SIZE] at *; omega

/-- C9: in every log state reachable from the zero-initialised log by `log_add_entry` and
`log_clear`: `count <= LOG_SIZE`, `write_index < LOG_SIZE` (the array has `LOG_SIZE` slots,
so append and iteration index in bounds); while `count < LOG_SIZE` the write cursor equals
`count`, iteration starts at slot 0 and the oldest entry is the one in slot 0; when
`count = LOG_SIZE` iteration starts at slot `write_index` and the oldest entry is the one
in that slot. -/
theorem C9_log_invariant (lb : log_buffer_t) (h : LogReach lb) :
    lb.count ≤ LOG_SIZE
    ∧ lb.write_index < LOG_SIZE
    ∧ lb.entries.length = LOG_SIZE
    ∧ (lb.count < LOG_SIZE → lb.write_index = lb.count ∧ log_start lb lb.count = 0)
    ∧ (0 < lb.count → lb.count < LOG_SIZE →
        (log_iterate lb).head? = some (lb.entries.getD 0 log_entry_zero))
    ∧ (lb.count = LOG_SIZE → log_start lb lb.count = lb.write_index)
    ∧ (lb.count = LOG_SIZE →
        (log_iterate lb).head? = some (lb.entries.getD lb.write_index log_entry_zero)) := by
  have hinv := logInv_of_reach h
  obtain ⟨h1, h2, h3, h4⟩ := hinv
  refine ⟨h3, h2, h1, ?_, ?_, ?_, ?_⟩
  · intro hc
    refine ⟨h4 hc, ?_⟩
    have := h4 hc
    simp only [log_start, LOG_SIZE, U32_MOD] at *
    omega
  · intro hpos hc
    rw [log_iterate_head lb (logInv_of_reach h) hpos, if_pos hc]
  · intro hc
    simp only [log_start, LOG_SIZE, U32_MOD] at *
    omega
  · intro hc
    rw [log_iterate_head lb (logInv_of_reach h) (by rw [hc]; decide), if_neg (by omega)]

/-- C9 (instance): after 105 appends stamped 0 .. 104 the log is full, the write cursor
has wrapped to slot 5, iteration starts at slot `write_index` = 5, and the oldest entry,
the one stamped 5, is the entry in that slot. -/
theorem C9_log_invariant_witness :
    LogReach log_wrapped
    ∧ log_wrapped.count = LOG_SIZE
    ∧ log_wrapped.write_index = 5
    ∧ log_start log_wrapped log_wrapped.count = log_wrapped.write_index
    ∧ (log_iterate log_wrapped).head?
        = some (log_wrapped.entries.getD log_wrapped.write_index log_entry_zero)
    ∧ (log_iterate log_wrapped).head? = some ⟨5, bms_status_zero⟩ := by
  have h := C9_log_invariant log_wrapped log_wrapped_reach
  refine ⟨log_wrapped_reach, log_wrapped_count, log_wrapped_write_index,
    h.2.2.2.2.2.1 log_wrapped_count, h.2.2.2.2.2.2 log_wrapped_count, ?_⟩
  rw [log_wrapped_iterate]
  decide

theorem log_last_index (w c m i : Nat) (hw : w < 100) (hc : c ≤ 100)
    (hcur : c < 100 → w = c) (hm : m ≤ c) (hi : i < m) :
    ((((w + 100) % 4294967296 + 4294967296 - m % 4294967296) % 4294967296) % 100 + i)
        % 4294967296 % 100
      = if c < 100 then c - m + i else (w + (c - m + i)) % 100 := by
  have e1 : (w + 100) % 4294967296 = w + 100 := by omega
  have e2 : m % 4294967296 = m := by omega
  have e3 : (w + 100 + 4294967296 - m) % 4294967296 = w + 100 - m := by omega
  rw [e1, e2, e3]
  have e4 : ((w + 100 - m) % 100 + i) % 4294967296 = (w + 100 - m) % 100 + i := by omega
  rw [e4]
  split_ifs with h
  · have := hcur h
    omega
  · omega

theorem log_visit_last (lb : log_buffer_t) (h : LogInv lb) (m : Nat) (hm : m ≤ lb.count) :
    log_visit lb (log_start lb m) m = (log_iterate lb).drop (lb.count - m) := by
  rw [log_iterate_eq lb h]
  obtain ⟨_, h2, h3, h4⟩ := h
  apply List.ext_getElem
  · simp [log_visit]; omega
  · intro i hi1 _
    simp only [log_visit, List.length_map, List.length_range] at hi1
    simp only [log_visit, List.getElem_map, List.getElem_range, List.getElem_drop]
    congr 1
    exact log_last_index lb.write_index lb.count m i h2 h3 h4 hm hi1

/-- C10: on every reachable non-empty log and for every `n` (so for every `n >= 1`, the
values `LOGLAST` passes), the entries printed by
`log_print_last(n)` are the last `min n count` entries of the oldest-first dump of
`log_print_all`, in the same order; with `n >= count` they are the whole dump. -/
theorem C10_last_is_suffix (lb : log_buffer_t) (n : Nat) (h : LogReach lb)
    (hne : lb.count ≠ 0) :
    Out.rows (log_print_last lb n)
        = (Out.rows (log_print_all lb)).drop (lb.count - min n lb.count)
    ∧ (Out.rows (log_print_last lb n)).length = min n lb.count
    ∧ (lb.count ≤ n → Out.rows (log_print_last lb n) = Out.rows (log_print_all lb)) := by
  have hinv := logInv_of_reach h
  have hmin : (if n > lb.count then lb.count else n) = min n lb.count := by
    split <;> omega
  have key : Out.rows (log_print_last lb n)
      = (Out.rows (log_print_all lb)).drop (lb.count - min n lb.count) := by
    rw [rows_log_print_last lb n hne, rows_log_print_all, hmin]
    exact log_visit_last lb hinv _ (by omega)
  refine ⟨key, ?_, ?_⟩
  · rw [key, rows_log_print_all, List.length_drop, log_iterate_length]
    omega
  · intro hge
    rw [key]
    have : lb.count - min n lb.count = 0 := by omega
    rw [this, List.drop_zero]

/-- C10 (instance): on the full, wrapped log holding the entries stamped 5 .. 104,
`log_print_last(7)` prints the dump of `log_print_all` without its first 93 rows: the
entries stamped 98 .. 104, which sit in slots 98, 99, 0, 1, 2, 3, 4. -/
theorem C10_last_is_suffix_witness :
    LogReach log_wrapped
    ∧ log_wrapped.count ≠ 0
    ∧ Out.rows (log_print_last log_wrapped 7)
        = (Out.rows (log_print_all log_wrapped)).drop 93
    ∧ Out.rows (log_print_last log_wrapped 7)
        = (List.range' 98 7).map (fun i => (⟨i, bms_status_zero⟩ : log_entry_t)) := by
  have hne : log_wrapped.count ≠ 0 := by rw [log_wrapped_count]; decide
  have h := (C10_last_is_suffix log_wrapped 7 log_wrapped_reach hne).1
  have hd : log_wrapped.count - min 7 log_wrapped.count = 93 := by
    rw [log_wrapped_count]; decide
  rw [hd] at h
  refine ⟨log_wrapped_reach, hne, h, ?_⟩
  rw [h, rows_log_print_all, log_wrapped_iterate]
  decide

/-! ## Float comparisons against finite bounds -/

theorem CFloat.gt_fin_iff (v : CFloat) (a : ℚ) :
    v.gt (.fin a) = true ↔ (∃ q, v = .fin q ∧ a < q) ∨ v = .pinf := by
  cases v <;> simp [CFloat.gt, CFloat.lt]

theorem CFloat.lt_fin_iff (v : CFloat) (a : ℚ) :
    v.lt (.fin a) = true ↔ (∃ q, v = .fin q ∧ q < a) ∨ v = .ninf := by
  cases v <;> simp [CFloat.lt]

theorem CFloat.ge_fin_iff (v : CFloat) (a : ℚ) :
    v.ge (.fin a) = true ↔ (∃ q, v = .fin q ∧ a ≤ q) ∨ v = .pinf := by
  cases v <;> simp [CFloat.ge, CFloat.le]

theorem CFloat.le_fin_iff (v : CFloat) (a : ℚ) :
    v.le (.fin a) = true ↔ (∃ q, v = .fin q ∧ q ≤ a) ∨ v = .ninf := by
  cases v <;> simp [CFloat.le]

theorem open_test_iff (v : CFloat) (lo hi : ℚ) :
    (v.gt (.fin lo) && v.lt (.fin hi)) = true ↔ v.inOpen lo hi := by
  cases v <;> simp [CFloat.gt, CFloat.lt, CFloat.inOpen]

theorem closed_test_iff (v : CFloat) (lo hi : ℚ) :
    (v.ge (.fin lo) && v.le (.fin hi)) = true ↔ v.inClosed lo hi := by
  cases v <;> simp [CFloat.ge, CFloat.le, CFloat.inClosed]

/-! ## Command dispatch -/

theorem strncmp_split (line : List Char) (lit : String) (n : Nat)
    (h : strncmp_eq line lit n = true) : line = lit.toList ++ line.drop n := by
  unfold strncmp_eq at h
  have h2 : List.take n line = lit.toList := by simpa using h
  conv_lhs => rw [← List.take_append_drop n line]
  rw [h2]

theorem process_command_SETCAL (strtof : List Char → CFloat) (atoi : List Char → Int)
    (line : List Char) (st : bms_status_t) (g : Globals)
    (h : strncmp_eq line "SETCAL " 7 = true) :
    process_command strtof atoi line st g
      = if (strtof (line.drop 7)).gt (.fin (1 / 2)) && (strtof (line.drop 7)).lt (.fin 2)
        then ({ g with cal_factor := strtof (line.drop 7) },
              [.value "OK: cal_factor=" (strtof (line.drop 7))])
        else (g, [.text "ERR: cal value out of range"]) := by
  have hs := strncmp_split line _ _ h
  generalize line.drop 7 = rest at *
  subst hs
  simp [process_command, strcmp_eq, strncmp_eq]

theorem process_command_CAL (strtof : List Char → CFloat) (atoi : List Char → Int)
    (line : List Char) (st : bms_status_t) (g : Globals)
    (h : strncmp_eq line "CAL " 4 = true) :
    process_command strtof atoi line st g
      = let cal_factor := g.cal_factor.add (strtof (line.drop 4))
        let cal_factor := if cal_factor.lt (.fin (1 / 2)) then .fin (1 / 2) else cal_factor
        let cal_factor := if cal_factor.gt (.fin 2) then .fin 2 else cal_factor
        ({ g with cal_factor := cal_factor }, [.value "OK: cal_factor=" cal_factor]) := by
  have hs := strncmp_split line _ _ h
  generalize line.drop 4 = rest at *
  subst hs
  simp [process_command, strcmp_eq, strncmp_eq]

theorem process_command_SETOFFSET (strtof : List Char → CFloat) (atoi : List Char → Int)
    (line : List Char) (st : bms_status_t) (g : Globals)
    (h : strncmp_eq line "SETOFFSET " 10 = true) :
    process_command strtof atoi line st g
      = if (strtof (line.drop 10)).ge (.fin (-1)) && (strtof (line.drop 10)).le (.fin 1)
        then ({ g with voltage_offset := strtof (line.drop 10) },
              [.value "OK: voltage_offset=" (strtof (line.drop 10))])
        else (g, [.text "ERR: offset out of range"]) := by
  have hs := strncmp_split line _ _ h
  generalize line.drop 10 = rest at *
  subst hs
  simp [process_command, strcmp_eq, strncmp_eq]

theorem process_command_OFFSET (strtof : List Char → CFloat) (atoi : List Char → Int)
    (line : List Char) (st : bms_status_t) (g : Globals)
    (h : strncmp_eq line "OFFSET " 7 = true) :
    process_command strtof atoi line st g
      = let voltage_offset := g.voltage_offset.add (strtof (line.drop 7))
        let voltage_offset :=
          if voltage_offset.lt (.fin (-1)) then .fin (-1) else voltage_offset
        let voltage_offset :=
          if voltage_offset.gt (.fin 1) then .fin 1 else voltage_offset
        ({ g with voltage_offset := voltage_offset },
         [.value "OK: voltage_offset=" voltage_offset]) := by
  have hs := strncmp_split line _ _ h
  generalize line.drop 7 = rest at *
  subst hs
  simp [process_command, strcmp_eq, strncmp_eq]

theorem process_command_SETOV (strtof : List Char → CFloat) (atoi : List Char → Int)
    (line : List Char) (st : bms_status_t) (g : Globals)
    (h : strncmp_eq line "SETOV " 6 = true) :
    process_command strtof atoi line st g
      = if (strtof (line.drop 6)).gt (.fin (5 / 2)) && (strtof (line.drop 6)).lt (.fin 5)
        then ({ g with CELL_OV_LIMIT_V := strtof (line.drop 6) },
              [.value "OK: OV_LIMIT=" (strtof (line.drop 6))])
        else (g, [.text "ERR: OV value out of range"]) := by
  have hs := strncmp_split line _ _ h
  generalize line.drop 6 = rest at *
  subst hs
  simp [process_command, strcmp_eq, strncmp_eq]

theorem process_command_SETUV (strtof : List Char → CFloat) (atoi : List Char → Int)
    (line : List Char) (st : bms_status_t) (g : Globals)
    (h : strncmp_eq line "SETUV " 6 = true) :
    process_command strtof atoi line st g
      = if (strtof (line.drop 6)).gt (.fin 2) && (strtof (line.drop 6)).lt (.fin 4)
        then ({ g with CELL_UV_LIMIT_V := strtof (line.drop 6) },
              [.value "OK: UV_LIMIT=" (strtof (line.drop 6))])
        else (g, [.text "ERR: UV value out of range"]) := by
  have hs := strncmp_split line _ _ h
  generalize line.drop 6 = rest at *
  subst hs
  simp [process_command, strcmp_eq, strncmp_eq]

/-! ## Claims on the calibration store -/

/-- C2: for each of `SETCAL`, `SETOFFSET`, `SETOV`, `SETUV` and every value `v` that
`strtof` returns for the argument: when `v` is in the declared range of the field
(`cal_factor` 0.5 < v < 2.0, `voltage_offset` -1.0 <= v <= 1.0, `ov_limit` 2.5 < v < 5.0,
`uv_limit` 2.0 < v < 4.0) the command stores exactly `v` in that field and changes nothing
else; when `v` is outside (infinities and NaN included) the command answers with its range
error and the whole state is unchanged. -/
theorem C2_absolute_set (strtof : List Char → CFloat) (atoi : List Char → Int)
    (line : List Char) (st : bms_status_t) (g : Globals) :
    (strncmp_eq line "SETCAL " 7 = true →
      ((strtof (line.drop 7)).inOpen (1 / 2) 2 →
        process_command strtof atoi line st g
          = ({ g with cal_factor := strtof (line.drop 7) },
             [.value "OK: cal_factor=" (strtof (line.drop 7))]))
      ∧ (¬ (strtof (line.drop 7)).inOpen (1 / 2) 2 →
        process_command strtof atoi line st g
          = (g, [.text "ERR: cal value out of range"])))
    ∧ (strncmp_eq line "SETOFFSET " 10 = true →
      ((strtof (line.drop 10)).inClosed (-1) 1 →
        process_command strtof atoi line st g
          = ({ g with voltage_offset := strtof (line.drop 10) },
             [.value "OK: voltage_offset=" (strtof (line.drop 10))]))
      ∧ (¬ (strtof (line.drop 10)).inClosed (-1) 1 →
        process_command strtof atoi line st g
          = (g, [.text "ERR: offset out of range"])))
    ∧ (strncmp_eq line "SETOV " 6 = true →
      ((strtof (line.drop 6)).inOpen (5 / 2) 5 →
        process_command strtof atoi line st g
          = ({ g with CELL_OV_LIMIT_V := strtof (line.drop 6) },
             [.value "OK: OV_LIMIT=" (strtof (line.drop 6))]))
      ∧ (¬ (strtof (line.drop 6)).inOpen (5 / 2) 5 →
        process_command strtof atoi line st g
          = (g, [.text "ERR: OV value out of range"])))
    ∧ (strncmp_eq line "SETUV " 6 = true →
      ((strtof (line.drop 6)).inOpen 2 4 →
        process_command strtof atoi line st g
          = ({ g with CELL_UV_LIMIT_V := strtof (line.drop 6) },
             [.value "OK: UV_LIMIT=" (strtof (line.drop 6))]))
      ∧ (¬ (strtof (line.drop 6)).inOpen 2 4 →
        process_command strtof atoi line st g
          = (g, [.text "ERR: UV value out of range"]))) := by
  refine ⟨fun h => ?_, fun h => ?_, fun h => ?_, fun h => ?_⟩
  · rw [process_command_SETCAL strtof atoi line st g h]
    constructor
    · intro hr; rw [if_pos ((open_test_iff _ _ _).mpr hr)]
    · intro hr; rw [if_neg (fun hc => hr ((open_test_iff _ _ _).mp hc))]
  · rw [process_command_SETOFFSET strtof atoi line st g h]
    constructor
    · intro hr; rw [if_pos ((closed_test_iff _ _ _).mpr hr)]
    · intro hr; rw [if_neg (fun hc => hr ((closed_test_iff _ _ _).mp hc))]
  · rw [process_command_SETOV strtof atoi line st g h]
    constructor
    · intro hr; rw [if_pos ((open_test_iff _ _ _).mpr hr)]
    · intro hr; rw [if_neg (fun hc => hr ((open_test_iff _ _ _).mp hc))]
  · rw [process_command_SETUV strtof atoi line st g h]
    constructor
    · intro hr; rw [if_pos ((open_test_iff _ _ _).mpr hr)]
    · intro hr; rw [if_neg (fun hc => hr ((open_test_iff _ _ _).mp hc))]

/-- C2 (instance): from the defaults `SETCAL 1.5` stores exactly 1.5, and `SETCAL 2.5` is
rejected and leaves the state as it was. -/
theorem C2_absolute_set_witness :
    (strncmp_eq "SETCAL 1.5".toList "SETCAL " 7 = true
      ∧ (strtof_sample ("SETCAL 1.5".toList.drop 7)).inOpen (1 / 2) 2
      ∧ process_command strtof_sample atoi_sample "SETCAL 1.5".toList bms_status_zero
          Globals.defaults
        = ({ Globals.defaults with cal_factor := .fin (3 / 2) },
           [.value "OK: cal_factor=" (.fin (3 / 2))]))
    ∧ (strncmp_eq "SETCAL 2.5".toList "SETCAL " 7 = true
      ∧ ¬ (strtof_sample ("SETCAL 2.5".toList.drop 7)).inOpen (1 / 2) 2
      ∧ process_command strtof_sample atoi_sample "SETCAL 2.5".toList bms_status_zero
          Globals.defaults
        = (Globals.defaults, [.text "ERR: cal value out of range"])) := by
  have h1 : strncmp_eq "SETCAL 1.5".toList "SETCAL " 7 = true := by decide
  have h2 : strncmp_eq "SETCAL 2.5".toList "SETCAL " 7 = true := by decide
  have v1 : strtof_sample ("SETCAL 1.5".toList.drop 7) = .fin (3 / 2) := by
    simp [strtof_sample]
  have v2 : strtof_sample ("SETCAL 2.5".toList.drop 7) = .fin (5 / 2) := by
    simp [strtof_sample]
  have r1 : (strtof_sample ("SETCAL 1.5".toList.drop 7)).inOpen (1 / 2) 2 := by
    rw [v1]; simp only [CFloat.inOpen]; norm_num
  have r2 : ¬ (strtof_sample ("SETCAL 2.5".toList.drop 7)).inOpen (1 / 2) 2 := by
    rw [v2]; simp only [CFloat.inOpen]; norm_num
  refine ⟨⟨h1, r1, ?_⟩, ⟨h2, r2, ?_⟩⟩
  · have := ((C2_absolute_set strtof_sample atoi_sample "SETCAL 1.5".toList bms_status_zero
      Globals.defaults).1 h1).1 r1
    rw [v1] at this
    exact this
  · exact ((C2_absolute_set strtof_sample atoi_sample "SETCAL 2.5".toList bms_status_zero
      Globals.defaults).1 h2).2 r2

/-! ### Delta commands -/

/-- Clamp of the delta commands on finite operands: the result is the clamped sum. -/
theorem delta_clamp_fin (c d lo hi : ℚ) (hlh : lo ≤ hi) :
    (if (if ((CFloat.fin c).add (.fin d)).lt (.fin lo) then CFloat.fin lo
          else (CFloat.fin c).add (.fin d)).gt (.fin hi)
      then CFloat.fin hi
      else (if ((CFloat.fin c).add (.fin d)).lt (.fin lo) then CFloat.fin lo
          else (CFloat.fin c).add (.fin d)))
      = .fin (clamp_spec (c + d) lo hi) := by
  have key : clamp_spec (c + d) lo hi
      = if c + d < lo then lo else if hi < c + d then hi else c + d := by
    simp only [clamp_spec, max_def, min_def]
    split_ifs <;> linarith
  have h2 : ¬ hi < lo := not_lt.mpr hlh
  rw [key]
  by_cases h1 : c + d < lo
  · simp [CFloat.add, CFloat.lt, CFloat.gt, h1, h2]
  · by_cases h3 : hi < c + d
    · simp [CFloat.add, CFloat.lt, CFloat.gt, h1, h3]
    · simp [CFloat.add, CFloat.lt, CFloat.gt, h1, h3]

/-- Clamp of the delta commands: from a value in range and a delta that is not NaN
(finite or infinite) the result is in the closed range. -/
theorem delta_clamp_closed (c d : CFloat) (lo hi : ℚ) (hlh : lo ≤ hi)
    (hc : c.inClosed lo hi) (hd : d ≠ .nan) :
    (if (if (c.add d).lt (.fin lo) then CFloat.fin lo else c.add d).gt (.fin hi)
      then CFloat.fin hi
      else (if (c.add d).lt (.fin lo) then CFloat.fin lo else c.add d)).inClosed lo hi := by
  cases c with
  | fin c =>
    cases d with
    | fin d =>
      rw [delta_clamp_fin c d lo hi hlh]
      simp only [CFloat.inClosed, clamp_spec]
      exact ⟨le_max_left _ _, max_le hlh (min_le_left _ _)⟩
    | pinf =>
      have h2 : ¬ hi < lo := not_lt.mpr hlh
      simp [CFloat.add, CFloat.lt, CFloat.gt, CFloat.inClosed, hlh]
    | ninf =>
      have h2 : ¬ hi < lo := not_lt.mpr hlh
      simp [CFloat.add, CFloat.lt, CFloat.gt, CFloat.inClosed, h2, hlh]
    | nan => exact absurd rfl hd
  | pinf => exact hc.elim
  | ninf => exact hc.elim
  | nan => exact hc.elim

/-- For every finite delta, `CAL` stores the sum clamped into [0.5, 2.0] and `OFFSET`
the sum clamped into [-1.0, 1.0]; neither rejects. -/
theorem delta_commands_clamp (strtof : List Char → CFloat) (atoi : List Char → Int)
    (line : List Char) (st : bms_status_t) (g : Globals) (c d : ℚ) :
    (strncmp_eq line "CAL " 4 = true → g.cal_factor = .fin c →
      strtof (line.drop 4) = .fin d →
      process_command strtof atoi line st g
        = ({ g with cal_factor := .fin (clamp_spec (c + d) (1 / 2) 2) },
           [.value "OK: cal_factor=" (.fin (clamp_spec (c + d) (1 / 2) 2))]))
    ∧ (strncmp_eq line "OFFSET " 7 = true → g.voltage_offset = .fin c →
      strtof (line.drop 7) = .fin d →
      process_command strtof atoi line st g
        = ({ g with voltage_offset := .fin (clamp_spec (c + d) (-1) 1) },
           [.value "OK: voltage_offset=" (.fin (clamp_spec (c + d) (-1) 1))])) := by
  constructor
  · intro h hc hd
    rw [process_command_CAL strtof atoi line st g h, hc, hd]
    simp only []
    rw [delta_clamp_fin c d (1 / 2) 2 (by norm_num)]
  · intro h hc hd
    rw [process_command_OFFSET strtof atoi line st g h, hc, hd]
    simp only []
    rw [delta_clamp_fin c d (-1) 1 (by norm_num)]

/-- C3 (failing input): from the defaults the line `CAL nan`, whose argument `strtof`
converts to NaN, is accepted and leaves `cal_factor` = NaN, which is not within
[0.5, 2.0]; likewise `OFFSET nan` leaves `voltage_offset` = NaN. -/
theorem C3_delta_nan_not_clamped :
    process_command strtof_sample atoi_sample "CAL nan".toList bms_status_zero
        Globals.defaults
      = ({ Globals.defaults with cal_factor := .nan }, [.value "OK: cal_factor=" .nan])
    ∧ ¬ CFloat.nan.inClosed (1 / 2) 2
    ∧ process_command strtof_sample atoi_sample "OFFSET nan".toList bms_status_zero
        Globals.defaults
      = ({ Globals.defaults with voltage_offset := .nan },
         [.value "OK: voltage_offset=" .nan])
    ∧ ¬ CFloat.nan.inClosed (-1) 1 := by
  refine ⟨?_, fun h => h, ?_, fun h => h⟩
  · rw [process_command_CAL _ _ _ _ _ (by decide)]
    have v : strtof_sample ("CAL nan".toList.drop 4) = .nan := by simp [strtof_sample]
    rw [v]
    simp [Globals.defaults, CFloat.add, CFloat.lt, CFloat.gt]
  · rw [process_command_OFFSET _ _ _ _ _ (by decide)]
    have v : strtof_sample ("OFFSET nan".toList.drop 7) = .nan := by simp [strtof_sample]
    rw [v]
    simp [Globals.defaults, CFloat.add, CFloat.lt, CFloat.gt]

/-! ### Range invariant -/

theorem calInv_defaults : CalInv Globals.defaults := by
  simp only [CalInv, Globals.defaults, CFloat.inClosed, CFloat.inOpen]
  norm_num

theorem calInv_step (strtof : List Char → CFloat) (atoi : List Char → Int)
    (line : List Char) (st : bms_status_t) (g : Globals) (h : CalInv g)
    (hn : ¬ nan_delta strtof line) : CalInv (process_command strtof atoi line st g).1 := by
  obtain ⟨h1, h2, h3, h4⟩ := h
  have hg : CalInv g := ⟨h1, h2, h3, h4⟩
  unfold process_command
  by_cases c1 : strcmp_eq line "READ" = true
  · rw [if_pos c1]; exact hg
  rw [if_neg c1]
  by_cases c2 : (strcmp_eq line "LOG" || strcmp_eq line "LOGALL") = true
  · rw [if_pos c2]; exact hg
  rw [if_neg c2]
  by_cases c3 : (strcmp_eq line "LOGCSV" || strcmp_eq line "CSV") = true
  · rw [if_pos c3]; exact hg
  rw [if_neg c3]
  by_cases c4 : strncmp_eq line "LOGLAST " 8 = true
  · rw [if_pos c4]
    simp only []
    split <;> exact hg
  rw [if_neg c4]
  by_cases c5 : strcmp_eq line "LOGSTATS" = true
  · rw [if_pos c5]; exact hg
  rw [if_neg c5]
  by_cases c6 : strcmp_eq line "LOGCLEAR" = true
  · rw [if_pos c6]; exact hg
  rw [if_neg c6]
  by_cases c7 : strncmp_eq line "SETCAL " 7 = true
  · rw [if_pos c7]
    simp only []
    split
    · rename_i c
      have hr := (open_test_iff _ _ _).mp c
      refine ⟨?_, h2, h3, h4⟩
      revert hr
      show (strtof (List.drop 7 line)).inOpen (1 / 2) 2
        → (strtof (List.drop 7 line)).inClosed (1 / 2) 2
      cases strtof (List.drop 7 line) <;> simp only [CFloat.inOpen, CFloat.inClosed]
      · intro ⟨a, b⟩; exact ⟨le_of_lt a, le_of_lt b⟩
      all_goals exact fun hf => hf
    · exact hg
  rw [if_neg c7]
  by_cases c8 : strncmp_eq line "CAL " 4 = true
  · rw [if_pos c8]
    have hd : strtof (line.drop 4) ≠ .nan := fun hd => hn (Or.inl ⟨c8, hd⟩)
    exact ⟨delta_clamp_closed _ _ _ _ (by norm_num) h1 hd, h2, h3, h4⟩
  rw [if_neg c8]
  by_cases c9 : strncmp_eq line "SETOFFSET " 10 = true
  · rw [if_pos c9]
    simp only []
    split
    · rename_i c
      exact ⟨h1, (closed_test_iff _ _ _).mp c, h3, h4⟩
    · exact hg
  rw [if_neg c9]
  by_cases c10 : strncmp_eq line "OFFSET " 7 = true
  · rw [if_pos c10]
    have hd : strtof (line.drop 7) ≠ .nan := fun hd => hn (Or.inr ⟨c10, hd⟩)
    exact ⟨h1, delta_clamp_closed _ _ _ _ (by norm_num) h2 hd, h3, h4⟩
  rw [if_neg c10]
  by_cases c11 : strncmp_eq line "SETOV " 6 = true
  · rw [if_pos c11]
    simp only []
    split
    · rename_i c
      exact ⟨h1, h2, (open_test_iff _ _ _).mp c, h4⟩
    · exact hg
  rw [if_neg c11]
  by_cases c12 : strncmp_eq line "SETUV " 6 = true
  · rw [if_pos c12]
    simp only []
    split
    · rename_i c
      exact ⟨h1, h2, h3, (open_test_iff _ _ _).mp c⟩
    · exact hg
  rw [if_neg c12]
  split <;> exact hg

theorem calInv_run (strtof : List Char → CFloat) (atoi : List Char → Int)
    (cmds : List (List Char × bms_status_t)) (g : Globals) (h : CalInv g)
    (hn : ∀ c ∈ cmds, ¬ nan_delta strtof c.1) : CalInv (run_commands strtof atoi cmds g) := by
  induction cmds generalizing g with
  | nil => exact h
  | cons c cmds ih =>
    simp only [run_commands, List.foldl_cons]
    apply ih
    · exact calInv_step strtof atoi c.1 c.2 g h (hn c (List.mem_cons_self _ _))
    · intro c2 hc2
      exact hn c2 (List.mem_cons_of_mem _ hc2)

theorem run_CAL_5 :
    run_commands strtof_sample atoi_sample [("CAL 5".toList, bms_status_zero)]
        Globals.defaults
      = { Globals.defaults with cal_factor := .fin 2 } := by
  have v : strtof_sample ("CAL 5".toList.drop 4) = .fin 5 := by simp [strtof_sample]
  have hc := (delta_commands_clamp strtof_sample atoi_sample "CAL 5".toList bms_status_zero
    Globals.defaults 1 5).1 (by decide) rfl v
  have e : clamp_spec (1 + 5) (1 / 2) 2 = 2 := by
    simp only [clamp_spec]; norm_num
  rw [e] at hc
  simp only [run_commands, List.foldl_cons, List.foldl_nil, hc]

/-- C4 (counterexample): from the defaults the single command `CAL 5` leaves
`cal_factor` = 2.0, which is not inside the open interval (0.5, 2.0). -/
theorem C4_declared_range_counterexample :
    ¬ CalInvDeclared
        (run_commands strtof_sample atoi_sample [("CAL 5".toList, bms_status_zero)]
          Globals.defaults) := by
  rw [run_CAL_5]
  intro h
  have h1 := h.1
  simp only [CFloat.inOpen] at h1
  exact absurd h1.2 (lt_irrefl _)

/-- C4 (amended): in every state reached from the defaults by a sequence of commands in
which no `CAL` or `OFFSET` argument converts to NaN, `cal_factor` lies in the closed
interval [0.5, 2.0], `voltage_offset` in [-1.0, 1.0], `ov_limit` in the open interval
(2.5, 5.0) and `uv_limit` in the open interval (2.0, 4.0). -/
theorem C4_calibration_ranges (strtof : List Char → CFloat) (atoi : List Char → Int)
    (cmds : List (List Char × bms_status_t))
    (hn : ∀ c ∈ cmds, ¬ nan_delta strtof c.1) :
    (run_commands strtof atoi cmds Globals.defaults).cal_factor.inClosed (1 / 2) 2
    ∧ (run_commands strtof atoi cmds Globals.defaults).voltage_offset.inClosed (-1) 1
    ∧ (run_commands strtof atoi cmds Globals.defaults).CELL_OV_LIMIT_V.inOpen (5 / 2) 5
    ∧ (run_commands strtof atoi cmds Globals.defaults).CELL_UV_LIMIT_V.inOpen 2 4 :=
  calInv_run strtof atoi cmds Globals.defaults calInv_defaults hn

/-- C4 (instance): the ranges after `CAL 5` then `SETOV 2.5` from the defaults. -/
theorem C4_calibration_ranges_witness :
    (∀ c ∈ [("CAL 5".toList, bms_status_zero), ("SETOV 2.5".toList, bms_status_zero)],
        ¬ nan_delta strtof_sample c.1)
    ∧ (run_commands strtof_sample atoi_sample
          [("CAL 5".toList, bms_status_zero), ("SETOV 2.5".toList, bms_status_zero)]
          Globals.defaults).cal_factor.inClosed (1 / 2) 2 := by
  have hn : ∀ c ∈ [("CAL 5".toList, bms_status_zero), ("SETOV 2.5".toList, bms_status_zero)],
      ¬ nan_delta strtof_sample c.1 := by
    intro c hc
    simp only [List.mem_cons, List.mem_singleton, List.not_mem_nil, or_false] at hc
    rcases hc with rfl | rfl
    · simp [nan_delta, strtof_sample]
    · simp [nan_delta, strncmp_eq]
  exact ⟨hn, (C4_calibration_ranges strtof_sample atoi_sample _ hn).1⟩

/-! ## Claims on the evaluator -/

set_option maxRecDepth 8192

/-- Evaluation of `b32_round` at a non-negative rational from its numerator, denominator,
spacing exponent and rounded significand. -/
theorem b32_round_eval (q : ℚ) (a d s m : Nat) (hq : ¬ q < 0) (ha : q.num.natAbs = a)
    (hd : q.den = d) (hs : b32_shift a d = s) (hm : b32_mant a d = m)
    (hov : ¬ 2 ^ 128 * 2 ^ 149 ≤ m * 2 ^ s) :
    b32_round q = .fin ((m : ℚ) * (2 : ℚ) ^ ((s : ℤ) - 149)) := by
  simp only [b32_round, ha, hd, hs, hm, hov, hq, if_false]

theorem b32_round_0 : b32_round 0 = .fin 0 := by
  rw [b32_round_eval 0 0 1 0 0 (by norm_num) (by norm_num) (by norm_num) (by decide)
    (by decide) (by decide)]
  norm_num

theorem b32_round_1 : b32_round 1 = .fin 1 := by
  rw [b32_round_eval 1 1 1 126 8388608 (by norm_num) (by norm_num) (by norm_num) (by decide)
    (by decide) (by decide)]
  norm_num

theorem b32_round_5 : b32_round 5 = .fin 5 := by
  rw [b32_round_eval 5 5 1 128 10485760 (by norm_num) (by norm_num) (by norm_num) (by decide)
    (by decide) (by decide)]
  norm_num

theorem b32_round_10 : b32_round 10 = .fin 10 := by
  rw [b32_round_eval 10 10 1 129 10485760 (by norm_num) (by norm_num) (by norm_num)
    (by decide) (by decide) (by decide)]
  norm_num

theorem b32_round_half : b32_round (1 / 2) = .fin (1 / 2) := by
  rw [b32_round_eval (1 / 2) 1 2 125 8388608 (by norm_num) (by norm_num) (by norm_num)
    (by decide) (by decide) (by decide)]
  norm_num

/-- The binary32 value of 1/10 is 13421773 / 2^27 (0x1.99999ap-4). -/
theorem b32_round_tenth : b32_round (1 / 10) = .fin (13421773 / 134217728) := by
  rw [b32_round_eval (1 / 10) 1 10 122 13421773 (by norm_num) (by norm_num) (by norm_num)
    (by decide) (by decide) (by decide)]
  norm_num

/-- The difference 1 - 13421773 / 2^27 rounds to 15099494 / 2^24 (0x1.ccccccp-1). -/
theorem b32_round_one_minus_tenth :
    b32_round (120795955 / 134217728) = .fin (15099494 / 16777216) := by
  rw [b32_round_eval (120795955 / 134217728) 120795955 134217728 125 15099494
    (by norm_num) (by norm_num) (by norm_num) (by decide) (by decide) (by decide)]
  norm_num

/-- The binary32 value of 44.9 is 11770266 / 2^18. -/
theorem b32_round_44_9 : b32_round (449 / 10) = .fin (11770266 / 262144) := by
  rw [b32_round_eval (449 / 10) 449 10 131 11770266 (by norm_num) (by norm_num)
    (by norm_num) (by decide) (by decide) (by decide)]
  norm_num

theorem throttle_b32_below (t : CFloat) (h : t.lt THROTTLE_START_TEMP = true) :
    calculate_throttle_factor_b32 t = .fin 1 := by
  simp [calculate_throttle_factor_b32, h]

theorem throttle_b32_above (t : CFloat) (h1 : t.lt THROTTLE_START_TEMP = false)
    (h2 : t.ge THROTTLE_MAX_TEMP = true) : calculate_throttle_factor_b32 t = .fin 0 := by
  simp [calculate_throttle_factor_b32, h1, h2]

theorem throttle_b32_between (t : CFloat) (h1 : t.lt THROTTLE_START_TEMP = false)
    (h2 : t.ge THROTTLE_MAX_TEMP = false) :
    calculate_throttle_factor_b32 t
      = ((CFloat.fin 1).sub (((t.sub THROTTLE_START_TEMP).b32).div
          ((THROTTLE_MAX_TEMP.sub THROTTLE_START_TEMP).b32)).b32).b32 := by
  simp [calculate_throttle_factor_b32, h1, h2]

theorem throttle_range_b32 : (THROTTLE_MAX_TEMP.sub THROTTLE_START_TEMP).b32 = .fin 10 := by
  have e : THROTTLE_MAX_TEMP.sub THROTTLE_START_TEMP = .fin 10 := by
    simp only [THROTTLE_MAX_TEMP, THROTTLE_START_TEMP, CFloat.sub, CFloat.neg, CFloat.add]
    norm_num
  rw [e, CFloat.b32, b32_round_10]

theorem throttle_b32_at_46 :
    calculate_throttle_factor_b32 (.fin 46) = .fin (15099494 / 16777216) := by
  rw [throttle_b32_between _ (by norm_num [CFloat.lt, THROTTLE_START_TEMP])
    (by norm_num [CFloat.ge, CFloat.le, THROTTLE_MAX_TEMP]), throttle_range_b32]
  have e1 : (CFloat.fin 46).sub THROTTLE_START_TEMP = .fin 1 := by
    simp only [THROTTLE_START_TEMP, CFloat.sub, CFloat.neg, CFloat.add]; norm_num
  have e2 : (CFloat.fin 1).div (.fin 10) = .fin (1 / 10) := by
    simp only [CFloat.div]; norm_num
  have e3 : (CFloat.fin 1).sub (.fin (13421773 / 134217728))
      = .fin (120795955 / 134217728) := by
    simp only [CFloat.sub, CFloat.neg, CFloat.add]; norm_num
  rw [e1, CFloat.b32, b32_round_1, e2, CFloat.b32, b32_round_tenth, e3, CFloat.b32,
    b32_round_one_minus_tenth]

theorem throttle_b32_at_45 : calculate_throttle_factor_b32 (.fin 45) = .fin 1 := by
  rw [throttle_b32_between _ (by norm_num [CFloat.lt, THROTTLE_START_TEMP])
    (by norm_num [CFloat.ge, CFloat.le, THROTTLE_MAX_TEMP]), throttle_range_b32]
  have e1 : (CFloat.fin 45).sub THROTTLE_START_TEMP = .fin 0 := by
    simp only [THROTTLE_START_TEMP, CFloat.sub, CFloat.neg, CFloat.add]; norm_num
  have e2 : (CFloat.fin 0).div (.fin 10) = .fin 0 := by
    simp only [CFloat.div]; norm_num
  have e3 : (CFloat.fin 1).sub (.fin 0) = .fin 1 := by
    simp only [CFloat.sub, CFloat.neg, CFloat.add]; norm_num
  rw [e1, CFloat.b32, b32_round_0, e2, CFloat.b32, b32_round_0, e3, CFloat.b32, b32_round_1]

theorem throttle_b32_at_50 : calculate_throttle_factor_b32 (.fin 50) = .fin (1 / 2) := by
  rw [throttle_b32_between _ (by norm_num [CFloat.lt, THROTTLE_START_TEMP])
    (by norm_num [CFloat.ge, CFloat.le, THROTTLE_MAX_TEMP]), throttle_range_b32]
  have e1 : (CFloat.fin 50).sub THROTTLE_START_TEMP = .fin 5 := by
    simp only [THROTTLE_START_TEMP, CFloat.sub, CFloat.neg, CFloat.add]; norm_num
  have e2 : (CFloat.fin 5).div (.fin 10) = .fin (1 / 2) := by
    simp only [CFloat.div]; norm_num
  have e3 : (CFloat.fin 1).sub (.fin (1 / 2)) = .fin (1 / 2) := by
    simp only [CFloat.sub, CFloat.neg, CFloat.add]; norm_num
  rw [e1, CFloat.b32, b32_round_5, e2, CFloat.b32, b32_round_half, e3, CFloat.b32,
    b32_round_half]

theorem log2_fuel_le (fuel n k : Nat) (h : n < 2 ^ (k + 1)) : log2_fuel fuel n ≤ k := by
  induction fuel generalizing n k with
  | zero => simp [log2_fuel]
  | succ f ih =>
    unfold log2_fuel
    split
    · omega
    · rename_i h2
      cases k with
      | zero => simp at h; omega
      | succ k =>
        have : n / 2 < 2 ^ (k + 1) := by
          rw [Nat.div_lt_iff_lt_mul (by norm_num)]
          calc n < 2 ^ (k + 1 + 1) := h
            _ = 2 ^ (k + 1) * 2 := by ring
        have := ih (n / 2) k this
        omega

theorem round_half_even_le (num den N : Nat) (hd : 0 < den) (h : num ≤ N * den) :
    round_half_even num den ≤ N := by
  have hfl : num / den ≤ N := by
    calc num / den ≤ N * den / den := Nat.div_le_div_right h
      _ = N := Nat.mul_div_cancel _ hd
  unfold round_half_even
  simp only []
  by_cases hlt : num / den < N
  · split_ifs <;> omega
  · have heq : num / den = N := by omega
    have hmod : num % den = 0 := by
      have := Nat.div_add_mod num den
      rw [heq] at this
      have : den * N + num % den ≤ N * den := by omega
      have h3 : den * N = N * den := Nat.mul_comm _ _
      omega
    rw [hmod]
    simp [hd, heq]

/-- Rounding to binary32 keeps a value of `[0, B]` inside `[0, B]`, for a natural bound
`B` below 2^20 (such a bound is a binary32 value). -/
theorem b32_round_bounded (q : ℚ) (B : Nat) (hB : B < 2 ^ 20) (h0 : 0 ≤ q)
    (hq : q ≤ B) : (b32_round q).inClosed 0 B := by
  have hd : 0 < q.den := q.den_pos
  have hnum : 0 ≤ q.num := Rat.num_nonneg.mpr h0
  -- a ≤ B * d
  have ha : q.num.natAbs ≤ B * q.den := by
    have h1 : q = (q.num : ℚ) / (q.den : ℚ) := (Rat.num_div_den q).symm
    have h2 : (q.num : ℚ) ≤ (B : ℚ) * (q.den : ℚ) := by
      have hdq : (0 : ℚ) < (q.den : ℚ) := by exact_mod_cast hd
      rw [h1, div_le_iff₀ hdq] at hq
      exact hq
    have h3 : ((q.num.natAbs : ℤ) : ℚ) ≤ ((B * q.den : ℕ) : ℚ) := by
      rw [Int.natAbs_of_nonneg hnum]
      push_cast
      exact h2
    exact_mod_cast h3
  have hs : b32_shift q.num.natAbs q.den ≤ 145 := by
    unfold b32_shift
    apply log2_fuel_le
    have h1 : q.num.natAbs * 2 ^ 126 / q.den ≤ B * 2 ^ 126 := by
      calc q.num.natAbs * 2 ^ 126 / q.den ≤ B * q.den * 2 ^ 126 / q.den :=
            Nat.div_le_div_right (Nat.mul_le_mul_right _ ha)
        _ = B * 2 ^ 126 := by
            rw [Nat.mul_right_comm, Nat.mul_div_cancel _ hd]
    have h2 : B * 2 ^ 126 < 2 ^ 20 * 2 ^ 126 := Nat.mul_lt_mul_of_pos_right hB (by positivity)
    have h3 : (2 : ℕ) ^ 20 * 2 ^ 126 = 2 ^ (145 + 1) := by norm_num
    omega
  generalize hsd : b32_shift q.num.natAbs q.den = s at hs
  have e : (2 : ℚ) ^ ((s : ℤ) - 149) = ((2 : ℚ) ^ (149 - s))⁻¹ := by
    have hc : ((149 - s : ℕ) : ℤ) = 149 - (s : ℤ) := by
      rw [Nat.cast_sub (by omega)]
      rfl
    rw [← zpow_natCast, ← zpow_neg, hc]
    congr 1
    ring
  have hm : b32_mant q.num.natAbs q.den ≤ B * 2 ^ (149 - s) := by
    unfold b32_mant
    simp only [hsd]
    rw [if_neg (by omega)]
    apply round_half_even_le _ _ _ hd
    calc q.num.natAbs * 2 ^ (149 - s) ≤ B * q.den * 2 ^ (149 - s) :=
          Nat.mul_le_mul_right _ ha
      _ = B * 2 ^ (149 - s) * q.den := Nat.mul_right_comm _ _ _
  generalize hmd : b32_mant q.num.natAbs q.den = m at hm
  have hpow : (2 : ℕ) ^ (149 - s) * 2 ^ s = 2 ^ 149 := by
    rw [← pow_add]; congr 1; omega
  have hov : ¬ 2 ^ 128 * 2 ^ 149 ≤ m * 2 ^ s := by
    have h1 : m * 2 ^ s ≤ B * 2 ^ (149 - s) * 2 ^ s := Nat.mul_le_mul_right _ hm
    rw [Nat.mul_assoc, hpow] at h1
    have h2 : B * 2 ^ 149 < 2 ^ 128 * 2 ^ 149 :=
      Nat.mul_lt_mul_of_pos_right (lt_trans hB (by norm_num)) (by positivity)
    omega
  have hneg : ¬ q < 0 := not_lt.mpr h0
  simp only [b32_round, hsd, hmd, hov, hneg, if_false, CFloat.inClosed]
  rw [e]
  have hp : (0 : ℚ) < (2 : ℚ) ^ (149 - s) := by positivity
  constructor
  · positivity
  · rw [← div_eq_mul_inv, div_le_iff₀ hp]
    exact_mod_cast hm

theorem inClosed_fin (x : CFloat) (lo hi : ℚ) (h : x.inClosed lo hi) :
    ∃ r : ℚ, x = .fin r ∧ lo ≤ r ∧ r ≤ hi := by
  cases x with
  | fin q => exact ⟨q, rfl, h.1, h.2⟩
  | pinf => exact h.elim
  | ninf => exact h.elim
  | nan => exact h.elim

/-- With every operation rounded to binary32 the throttle factor is in [0, 1] at every
finite temperature. -/
theorem throttle_b32_range (t : ℚ) : (calculate_throttle_factor_b32 (.fin t)).inClosed 0 1 := by
  by_cases h1 : t < 45
  · rw [throttle_b32_below _ (by simp [CFloat.lt, THROTTLE_START_TEMP, h1])]
    simp [CFloat.inClosed]
  · by_cases h2 : 55 ≤ t
    · rw [throttle_b32_above _ (by simp [CFloat.lt, THROTTLE_START_TEMP, h1])
        (by simp [CFloat.ge, CFloat.le, THROTTLE_MAX_TEMP, h2])]
      simp [CFloat.inClosed]
    · have h45 : 45 ≤ t := not_lt.mp h1
      have h55 : t < 55 := not_le.mp h2
      rw [throttle_b32_between _ (by simp [CFloat.lt, THROTTLE_START_TEMP, h1])
        (by simp [CFloat.ge, CFloat.le, THROTTLE_MAX_TEMP, h2]), throttle_range_b32]
      have e1 : (CFloat.fin t).sub THROTTLE_START_TEMP = .fin (t + -45) := by
        simp only [THROTTLE_START_TEMP, CFloat.sub, CFloat.neg, CFloat.add]
      rw [e1, CFloat.b32]
      obtain ⟨r1, hr1, h1a, h1b⟩ := inClosed_fin _ _ _
        (b32_round_bounded (t + -45) 10 (by norm_num) (by linarith)
          (by push_cast; linarith))
      rw [hr1]
      have e2 : (CFloat.fin r1).div (.fin 10) = .fin (r1 / 10) := by
        simp only [CFloat.div]; norm_num
      rw [e2, CFloat.b32]
      have h1b' : r1 ≤ 10 := by exact_mod_cast h1b
      obtain ⟨r2, hr2, h2a, h2b⟩ := inClosed_fin _ _ _
        (b32_round_bounded (r1 / 10) 1 (by norm_num) (by positivity)
          (by push_cast; linarith))
      rw [hr2]
      have h2b' : r2 ≤ 1 := by exact_mod_cast h2b
      have e3 : (CFloat.fin 1).sub (.fin r2) = .fin (1 + -r2) := by
        simp only [CFloat.sub, CFloat.neg, CFloat.add]
      rw [e3, CFloat.b32]
      have := b32_round_bounded (1 + -r2) 1 (by norm_num) (by linarith)
        (by push_cast; linarith)
      exact_mod_cast this

/-- C5 (counterexample): at 46.0 the function, evaluated with binary32 rounding, returns
15099494 / 2^24 (0x1.ccccccp-1, about 0.89999998), while the value of the derating curve
`1 - (46 - 45)/(55 - 45)` is 9/10. -/
theorem C5_interpolation_rounds_counterexample :
    calculate_throttle_factor_b32 (.fin 46) = .fin (15099494 / 16777216)
    ∧ throttle_curve_spec 46 = 9 / 10
    ∧ calculate_throttle_factor_b32 (.fin 46) ≠ .fin (throttle_curve_spec 46) := by
  have hc : throttle_curve_spec 46 = 9 / 10 := by
    simp only [throttle_curve_spec]; norm_num
  refine ⟨throttle_b32_at_46, hc, ?_⟩
  rw [throttle_b32_at_46, hc]
  intro h
  injection h with h
  norm_num at h

/-- C5 (amended): `calculate_throttle_factor` returns exactly 1.0 for every temperature
below 45.0 and exactly 0.0 for every temperature from 55.0 on, which are the values of the
derating curve there; for the other temperatures it returns the expression
`1 - (t - 45)/(55 - 45)` with each of its operations rounded to binary32.  At 44.9, 45.0,
50.0, 55.0 and 70.0 the values are exactly 1.0, 1.0, 0.5, 0.0 and 0.0. -/
theorem C5_throttle_curve :
    (∀ t : CFloat, t.lt THROTTLE_START_TEMP = true →
      calculate_throttle_factor_b32 t = .fin 1)
    ∧ (∀ t : CFloat, t.lt THROTTLE_START_TEMP = false → t.ge THROTTLE_MAX_TEMP = true →
      calculate_throttle_factor_b32 t = .fin 0)
    ∧ (∀ t : ℚ, t < 45 ∨ 55 ≤ t →
      calculate_throttle_factor_b32 (.fin t) = .fin (throttle_curve_spec t))
    ∧ (∀ t : CFloat, t.lt THROTTLE_START_TEMP = false → t.ge THROTTLE_MAX_TEMP = false →
      calculate_throttle_factor_b32 t
        = ((CFloat.fin 1).sub (((t.sub (.fin 45)).b32).div
            ((CFloat.fin 55).sub (.fin 45)).b32).b32).b32)
    ∧ calculate_throttle_factor_b32 (b32_round (449 / 10)) = .fin 1
    ∧ calculate_throttle_factor_b32 (.fin 45) = .fin 1
    ∧ calculate_throttle_factor_b32 (.fin 50) = .fin (1 / 2)
    ∧ calculate_throttle_factor_b32 (.fin 55) = .fin 0
    ∧ calculate_throttle_factor_b32 (.fin 70) = .fin 0 := by
  refine ⟨throttle_b32_below, throttle_b32_above, ?_, throttle_b32_between, ?_,
    throttle_b32_at_45, throttle_b32_at_50, ?_, ?_⟩
  · intro t ht
    unfold throttle_curve_spec
    rcases ht with h | h
    · rw [if_pos h]
      exact throttle_b32_below _ (by simp [CFloat.lt, THROTTLE_START_TEMP, h])
    · have h45 : ¬ t < 45 := by linarith
      rw [if_neg h45, if_pos h]
      exact throttle_b32_above _ (by simp [CFloat.lt, THROTTLE_START_TEMP, h45])
        (by simp [CFloat.ge, CFloat.le, THROTTLE_MAX_TEMP, h])
  · rw [b32_round_44_9]
    exact throttle_b32_below _ (by
      simp only [CFloat.lt, THROTTLE_START_TEMP, decide_eq_true_eq]; norm_num)
  · exact throttle_b32_above _ (by norm_num [CFloat.lt, THROTTLE_START_TEMP])
      (by norm_num [CFloat.ge, CFloat.le, THROTTLE_MAX_TEMP])
  · exact throttle_b32_above _ (by norm_num [CFloat.lt, THROTTLE_START_TEMP])
      (by norm_num [CFloat.ge, CFloat.le, THROTTLE_MAX_TEMP])

/-- C5 (instance): at 30.0 the factor is 1.0 and at 60.0 it is 0.0, the values of the
curve; at 46.0, between the two thresholds, it is the rounded expression. -/
theorem C5_throttle_curve_witness :
    (CFloat.fin 30).lt THROTTLE_START_TEMP = true
    ∧ calculate_throttle_factor_b32 (.fin 30) = .fin 1
    ∧ ((60 : ℚ) < 45 ∨ (55 : ℚ) ≤ 60)
    ∧ calculate_throttle_factor_b32 (.fin 60) = .fin (throttle_curve_spec 60)
    ∧ (CFloat.fin 46).lt THROTTLE_START_TEMP = false
    ∧ (CFloat.fin 46).ge THROTTLE_MAX_TEMP = false
    ∧ calculate_throttle_factor_b32 (.fin 46)
        = ((CFloat.fin 1).sub ((((CFloat.fin 46).sub (.fin 45)).b32).div
            ((CFloat.fin 55).sub (.fin 45)).b32).b32).b32 := by
  have h30 : (CFloat.fin 30).lt THROTTLE_START_TEMP = true := by
    norm_num [CFloat.lt, THROTTLE_START_TEMP]
  have h46a : (CFloat.fin 46).lt THROTTLE_START_TEMP = false := by
    norm_num [CFloat.lt, THROTTLE_START_TEMP]
  have h46b : (CFloat.fin 46).ge THROTTLE_MAX_TEMP = false := by
    norm_num [CFloat.ge, CFloat.le, THROTTLE_MAX_TEMP]
  exact ⟨h30, C5_throttle_curve.1 _ h30, Or.inr (by norm_num),
    C5_throttle_curve.2.2.1 60 (Or.inr (by norm_num)), h46a, h46b,
    C5_throttle_curve.2.2.2.1 _ h46a h46b⟩

/-- Outside the interpolation range the rounded and the exact throttle function agree. -/
theorem throttle_b32_agrees (t : CFloat)
    (h : t.lt THROTTLE_START_TEMP = true ∨ t.ge THROTTLE_MAX_TEMP = true) :
    calculate_throttle_factor_b32 t = calculate_throttle_factor t := by
  rcases h with h | h
  · simp [calculate_throttle_factor_b32, calculate_throttle_factor, h]
  · by_cases h1 : t.lt THROTTLE_START_TEMP = true
    · simp [calculate_throttle_factor_b32, calculate_throttle_factor, h1]
    · simp [calculate_throttle_factor_b32, calculate_throttle_factor, h1, h]

theorem measure_bms_valid (hw : Hw) (g : Globals) (st : bms_status_t)
    (hv : read_digital_data_valid hw = true) :
    (measure_bms hw g st).data_valid = true
    ∧ (measure_bms hw g st).cell_v = vpin_to_vcell g (adc_raw_to_vpin (hw.raw 0))
    ∧ (measure_bms hw g st).ov_flag = (measure_bms hw g st).cell_v.gt g.CELL_OV_LIMIT_V
    ∧ (measure_bms hw g st).uv_flag = (measure_bms hw g st).cell_v.lt g.CELL_UV_LIMIT_V := by
  simp [measure_bms, hv]

/-- C6: whenever the validity gate passes, the flags `measure_bms` sets are
`ov = (cell_v > ov_limit)` and `uv = (cell_v < uv_limit)` with strict inequality: for
finite values `ov` is set exactly when the limit is strictly below the cell voltage and
`uv` exactly when the cell voltage is strictly below the limit, and a cell voltage equal
to a limit raises neither flag.  With `ov_limit` = 4.20 a cell voltage of 4.20 gives
`ov` = false and a cell voltage of 4.2001 gives `ov` = true. -/
theorem C6_flags_strict (hw : Hw) (g : Globals) (st : bms_status_t)
    (hv : read_digital_data_valid hw = true) :
    (measure_bms hw g st).ov_flag = (measure_bms hw g st).cell_v.gt g.CELL_OV_LIMIT_V
    ∧ (measure_bms hw g st).uv_flag = (measure_bms hw g st).cell_v.lt g.CELL_UV_LIMIT_V
    ∧ (∀ v l : ℚ, (measure_bms hw g st).cell_v = .fin v → g.CELL_OV_LIMIT_V = .fin l →
        ((measure_bms hw g st).ov_flag = true ↔ l < v))
    ∧ (∀ v l : ℚ, (measure_bms hw g st).cell_v = .fin v → g.CELL_UV_LIMIT_V = .fin l →
        ((measure_bms hw g st).uv_flag = true ↔ v < l))
    ∧ ((measure_bms hw g st).cell_v = g.CELL_OV_LIMIT_V →
        (measure_bms hw g st).ov_flag = false)
    ∧ ((measure_bms hw g st).cell_v = g.CELL_UV_LIMIT_V →
        (measure_bms hw g st).uv_flag = false)
    ∧ (g.CELL_OV_LIMIT_V = .fin (420 / 100) →
        (measure_bms hw g st).cell_v = .fin (420 / 100) →
        (measure_bms hw g st).ov_flag = false)
    ∧ (g.CELL_OV_LIMIT_V = .fin (420 / 100) →
        (measure_bms hw g st).cell_v = .fin (42001 / 10000) →
        (measure_bms hw g st).ov_flag = true) := by
  obtain ⟨_, _, hov, huv⟩ := measure_bms_valid hw g st hv
  refine ⟨hov, huv, ?_, ?_, ?_, ?_, ?_, ?_⟩
  · intro v l h1 h2
    rw [hov, h1, h2]
    simp [CFloat.gt, CFloat.lt]
  · intro v l h1 h2
    rw [huv, h1, h2]
    simp [CFloat.lt]
  · intro h
    rw [hov, h]
    cases g.CELL_OV_LIMIT_V <;> simp [CFloat.gt, CFloat.lt]
  · intro h
    rw [huv, h]
    cases g.CELL_UV_LIMIT_V <;> simp [CFloat.lt]
  · intro h1 h2
    rw [hov, h1, h2]
    simp [CFloat.gt, CFloat.lt]
  · intro h1 h2
    rw [hov, h1, h2]
    simp only [CFloat.gt, CFloat.lt, decide_eq_true_eq]
    norm_num

theorem measure_sample_cell_v :
    (measure_bms hw_full_scale globals_sample bms_status_zero).cell_v
      = .fin (42001 / 10000) := by
  rw [(measure_bms_valid hw_full_scale globals_sample bms_status_zero (by decide)).2.1]
  simp only [vpin_to_vcell, adc_raw_to_vpin, Hw.raw, hw_full_scale, globals_sample,
    Globals.defaults, R_TOP, R_BOTTOM, CFloat.ofNat, CFloat.mul, CFloat.add, CFloat.div]
  norm_num

/-- C6 (instance): with the default `ov_limit` = 4.20, a cycle that measures a cell voltage
of exactly 4.2001 V sets `ov_flag`. -/
theorem C6_flags_strict_witness :
    read_digital_data_valid hw_full_scale = true
    ∧ globals_sample.CELL_OV_LIMIT_V = .fin (420 / 100)
    ∧ (measure_bms hw_full_scale globals_sample bms_status_zero).cell_v
        = .fin (42001 / 10000)
    ∧ (measure_bms hw_full_scale globals_sample bms_status_zero).ov_flag = true :=
  ⟨by decide, rfl, measure_sample_cell_v,
   (C6_flags_strict hw_full_scale globals_sample bms_status_zero (by decide)).2.2.2.2.2.2.2
     rfl measure_sample_cell_v⟩

/-! ## Claims on the statistics -/

theorem run_SETOFFSET_neg1 :
    (process_command strtof_sample atoi_sample "SETOFFSET -1".toList bms_status_zero
        Globals.defaults).1
      = { Globals.defaults with voltage_offset := .fin (-1) } := by
  have v : strtof_sample ("SETOFFSET -1".toList.drop 10) = .fin (-1) := by
    simp [strtof_sample]
  rw [process_command_SETOFFSET _ _ _ _ _ (by decide), v]
  simp [CFloat.ge, CFloat.le]

theorem measure_zero_scale_cell_v :
    (measure_bms hw_zero_scale { Globals.defaults with voltage_offset := .fin (-1) }
        bms_status_zero).cell_v = .fin (-1) := by
  rw [(measure_bms_valid hw_zero_scale _ bms_status_zero (by decide)).2.1]
  simp only [vpin_to_vcell, adc_raw_to_vpin, Hw.raw, hw_zero_scale,
    Globals.defaults, R_TOP, R_BOTTOM, CFloat.ofNat, CFloat.mul, CFloat.add, CFloat.div]
  norm_num

/-- The statistics of a log holding exactly one entry. -/
theorem log_stats_single (lb : log_buffer_t) (e : log_entry_t)
    (h : log_iterate lb = [e]) :
    (log_stats_compute lb).max_v
        = (if e.status.cell_v.gt (.fin 0) then e.status.cell_v else .fin 0)
    ∧ (log_stats_compute lb).min_v
        = (if e.status.cell_v.lt (.fin 999) then e.status.cell_v else .fin 999) := by
  simp [log_stats_compute, h, log_stats_step, log_stats_init]

/-- C7 (failing input): after `SETOFFSET -1` a valid cycle whose cell ADC code is 0
measures a cell voltage of exactly -1.0 V; once that snapshot is the only entry of the
log, `log_stats` computes `max_v` = 0.0 (the initial value of the accumulator), although
the maximum of the stored cell voltages is -1.0. -/
theorem C7_stats_max_stuck_at_zero :
    (measure_bms hw_zero_scale
        (process_command strtof_sample atoi_sample "SETOFFSET -1".toList bms_status_zero
          Globals.defaults).1 bms_status_zero).data_valid = true
    ∧ (log_iterate
        (log_add_entry log_buffer_init 1000
          (measure_bms hw_zero_scale
            (process_command strtof_sample atoi_sample "SETOFFSET -1".toList
              bms_status_zero Globals.defaults).1 bms_status_zero))).map
          (fun e => e.status.cell_v) = [.fin (-1)]
    ∧ (log_stats_compute
        (log_add_entry log_buffer_init 1000
          (measure_bms hw_zero_scale
            (process_command strtof_sample atoi_sample "SETOFFSET -1".toList
              bms_status_zero Globals.defaults).1 bms_status_zero))).max_v = .fin 0
    ∧ (log_stats_compute
        (log_add_entry log_buffer_init 1000
          (measure_bms hw_zero_scale
            (process_command strtof_sample atoi_sample "SETOFFSET -1".toList
              bms_status_zero Globals.defaults).1 bms_status_zero))).min_v = .fin (-1) := by
  rw [run_SETOFFSET_neg1]
  have hit := log_iterate_add_nonfull log_buffer_init 1000
    (measure_bms hw_zero_scale { Globals.defaults with voltage_offset := .fin (-1) }
      bms_status_zero) logInv_init (by decide)
  rw [log_iterate_init, List.nil_append] at hit
  have hs := log_stats_single _ _ hit
  refine ⟨(measure_bms_valid hw_zero_scale _ bms_status_zero (by decide)).1, ?_, ?_, ?_⟩
  · rw [hit]
    simp only [List.map_cons, List.map_nil, measure_zero_scale_cell_v]
  · rw [hs.1]
    simp only [measure_zero_scale_cell_v, CFloat.gt, CFloat.lt]
    norm_num
  · rw [hs.2]
    simp only [measure_zero_scale_cell_v, CFloat.lt]
    norm_num

/-- The statistics for three stored entries with cell voltages 3.0, 4.0 and 3.5:
min 3.0, max 4.0, avg 3.5. -/
theorem log_stats_three_entries :
    (log_stats_compute (log_add_entries log_buffer_init stats_sample)).min_v = .fin 3
    ∧ (log_stats_compute (log_add_entries log_buffer_init stats_sample)).max_v = .fin 4
    ∧ (log_stats_compute (log_add_entries log_buffer_init stats_sample)).avg_v
        = .fin (7 / 2) := by
  have hi := log_iterate_fresh stats_sample
  have hl : stats_sample.length - LOG_SIZE = 0 := by simp [stats_sample, LOG_SIZE]
  rw [hl, List.drop_zero] at hi
  have hc : (log_add_entries log_buffer_init stats_sample).count = 3 := by
    rw [log_count_fresh]; simp [stats_sample, LOG_SIZE]
  unfold log_stats_compute
  rw [hi, hc]
  simp only [stats_sample, status_with_cell_v, List.map_cons, List.map_nil, List.foldl_cons,
    List.foldl_nil, log_stats_step, log_stats_init, bms_status_zero, CFloat.lt, CFloat.gt,
    CFloat.add, CFloat.div, CFloat.ofNat]
  norm_num

theorem measure_bms_invalid (hw : Hw) (g : Globals) (st : bms_status_t)
    (hv : read_digital_data_valid hw = false) :
    measure_bms hw g st = { st with data_valid := false } := by
  simp [measure_bms, hv]

/-! ## Claims on the measurement cycle -/

/-- C12: when the validity gate reports false, `measure_bms` returns the status it was
given with `data_valid` = false and every other field (voltages, currents, powers, RMS
values, temperature, throttle factor, `voltage_pin`, the four flags) as before the call;
the result does not depend on any ADC sample, on the temperature reading or on the
thresholds. -/
theorem C12_invalid_leaves_fields (hw : Hw) (g : Globals) (st : bms_status_t)
    (hv : read_digital_data_valid hw = false) :
    measure_bms hw g st = { st with data_valid := false }
    ∧ (∀ (hw2 : Hw) (g2 : Globals), read_digital_data_valid hw2 = false →
        measure_bms hw2 g2 st = measure_bms hw g st) := by
  have h : ∀ (hw2 : Hw) (g2 : Globals), read_digital_data_valid hw2 = false →
      measure_bms hw2 g2 st = { st with data_valid := false } := by
    intro hw2 g2 h2
    simp [measure_bms, h2]
  exact ⟨h hw g hv, fun hw2 g2 h2 => by rw [h hw2 g2 h2, h hw g hv]⟩

/-- C12 (instance): a failed gate on a status holding a cell voltage of 3.5 V and a
valid flag returns the same status with only `data_valid` cleared. -/
theorem C12_invalid_leaves_fields_witness :
    read_digital_data_valid hw_invalid = false
    ∧ measure_bms hw_invalid Globals.defaults
        { status_with_cell_v (7 / 2) with data_valid := true }
      = { ({ status_with_cell_v (7 / 2) with data_valid := true } : bms_status_t) with
          data_valid := false } :=
  ⟨by decide,
   (C12_invalid_leaves_fields hw_invalid Globals.defaults
     { status_with_cell_v (7 / 2) with data_valid := true } (by decide)).1⟩

/-! ### The log across cycles -/

theorem process_command_log_buffer (strtof : List Char → CFloat) (atoi : List Char → Int)
    (line : List Char) (st : bms_status_t) (g : Globals) :
    (process_command strtof atoi line st g).1.log_buffer
      = if strcmp_eq line "LOGCLEAR" then log_clear g.log_buffer else g.log_buffer := by
  by_cases c6 : strcmp_eq line "LOGCLEAR" = true
  · rw [if_pos c6]
    have hl : line = "LOGCLEAR".toList := by simpa [strcmp_eq] using c6
    subst hl
    simp [process_command, strcmp_eq, strncmp_eq]
  rw [if_neg c6]
  unfold process_command
  by_cases c1 : strcmp_eq line "READ" = true
  · rw [if_pos c1]
  rw [if_neg c1]
  by_cases c2 : (strcmp_eq line "LOG" || strcmp_eq line "LOGALL") = true
  · rw [if_pos c2]
  rw [if_neg c2]
  by_cases c3 : (strcmp_eq line "LOGCSV" || strcmp_eq line "CSV") = true
  · rw [if_pos c3]
  rw [if_neg c3]
  by_cases c4 : strncmp_eq line "LOGLAST " 8 = true
  · rw [if_pos c4]
    simp only []
    split <;> rfl
  rw [if_neg c4]
  by_cases c5 : strcmp_eq line "LOGSTATS" = true
  · rw [if_pos c5]
  rw [if_neg c5, if_neg c6]
  by_cases c7 : strncmp_eq line "SETCAL " 7 = true
  · rw [if_pos c7]
    simp only []
    split <;> rfl
  rw [if_neg c7]
  by_cases c8 : strncmp_eq line "CAL " 4 = true
  · rw [if_pos c8]
  rw [if_neg c8]
  by_cases c9 : strncmp_eq line "SETOFFSET " 10 = true
  · rw [if_pos c9]
    simp only []
    split <;> rfl
  rw [if_neg c9]
  by_cases c10 : strncmp_eq line "OFFSET " 7 = true
  · rw [if_pos c10]
  rw [if_neg c10]
  by_cases c11 : strncmp_eq line "SETOV " 6 = true
  · rw [if_pos c11]
    simp only []
    split <;> rfl
  rw [if_neg c11]
  by_cases c12 : strncmp_eq line "SETUV " 6 = true
  · rw [if_pos c12]
    simp only []
    split <;> rfl
  rw [if_neg c12]
  split <;> rfl

theorem log_clear_idem (lb : log_buffer_t) : log_clear (log_clear lb) = log_clear lb := rfl

/-- `poll_serial_commands` leaves the log as it was or cleared. -/
theorem poll_log_buffer (strtof : List Char → CFloat) (atoi : List Char → Int)
    (st : bms_status_t) (chars buf : List Char) (g : Globals) :
    (poll_serial_commands strtof atoi st chars buf g).2.1.log_buffer = g.log_buffer
    ∨ (poll_serial_commands strtof atoi st chars buf g).2.1.log_buffer
        = log_clear g.log_buffer := by
  induction chars generalizing buf g with
  | nil => left; rfl
  | cons c rest ih =>
    unfold poll_serial_commands
    split_ifs with h1 h2 h3
    · simp only []
      have hp := process_command_log_buffer strtof atoi
        (buf.takeWhile (fun x => x ≠ Char.ofNat 0)) st g
      rcases ih [] (process_command strtof atoi
        (buf.takeWhile (fun x => x ≠ Char.ofNat 0)) st g).1 with h | h
      · rw [h, hp]
        split
        · right; rfl
        · left; rfl
      · rw [h, hp]
        split
        · right; rfl
        · right; rfl
    · exact ih buf g
    · exact ih (buf ++ [c]) g
    · exact ih buf g

theorem logValid_init : LogValid log_buffer_init :=
  ⟨logInv_init, by rw [log_iterate_init]; intro e he; cases he⟩

theorem logValid_clear (lb : log_buffer_t) (h : LogValid lb) : LogValid (log_clear lb) :=
  ⟨logInv_clear lb h.1, by
    rw [log_iterate_nil (log_clear lb) rfl]; intro e he; cases he⟩

theorem logValid_add (lb : log_buffer_t) (now : Nat) (st : bms_status_t)
    (h : LogValid lb) (hv : st.data_valid = true) : LogValid (log_add_entry lb now st) := by
  refine ⟨logInv_add lb now st h.1, ?_⟩
  rw [log_iterate_add lb now st h.1]
  intro e he
  unfold queue_push at he
  rcases List.mem_append.mp he with h1 | h1
  · split at h1
    · exact h.2 e h1
    · exact h.2 e (List.mem_of_mem_tail h1)
  · rw [List.mem_singleton] at h1
    rw [h1]
    exact hv

theorem main_measure_valid (hw : Hw) (now : Nat) (s : main_state)
    (h : LogValid s.g.log_buffer) : LogValid (main_measure_and_log hw now s).g.log_buffer := by
  unfold main_measure_and_log
  simp only []
  split
  · rename_i hv
    exact logValid_add _ _ _ h hv
  · exact h

theorem main_measure_invalid (hw : Hw) (now : Nat) (s : main_state)
    (hv : read_digital_data_valid hw = false) :
    (main_measure_and_log hw now s).g = s.g := by
  have h := (measure_bms_invalid hw s.g s.bms hv)
  unfold main_measure_and_log
  simp only [h]
  rfl

theorem main_cycle_valid (strtof : List Char → CFloat) (atoi : List Char → Int)
    (hw : Hw) (now : Nat) (chars : List Char) (s : main_state)
    (h : LogValid s.g.log_buffer) :
    LogValid (main_cycle strtof atoi hw now chars s).1.g.log_buffer := by
  have h1 := main_measure_valid hw now s h
  unfold main_cycle
  simp only []
  rcases poll_log_buffer strtof atoi (main_measure_and_log hw now s).bms chars
    (main_measure_and_log hw now s).buf (main_measure_and_log hw now s).g with e | e
  · rw [e]; exact h1
  · rw [e]; exact logValid_clear _ h1

theorem logValid_of_reach (strtof : List Char → CFloat) (atoi : List Char → Int)
    (s : main_state) (h : MainReach strtof atoi s) : LogValid s.g.log_buffer := by
  induction h with
  | init => exact logValid_init
  | cycle s hw now chars _ ih => exact main_cycle_valid strtof atoi hw now chars s ih

/-- C11 (amended): in every state reachable by whole cycles of `main` from the empty log,
every stored entry of the log has `data_valid` = true; and a cycle whose validity gate
fails appends nothing: its measure-and-log step leaves the log as it was, and after the
whole cycle all entries are as before while `count` and `write_index` are either
unchanged or both reset by a `LOGCLEAR` command processed in that cycle. -/
theorem C11_only_valid_logged (strtof : List Char → CFloat) (atoi : List Char → Int)
    (s : main_state) (h : MainReach strtof atoi s) :
    (∀ e ∈ log_iterate s.g.log_buffer, e.status.data_valid = true)
    ∧ (∀ (hw : Hw) (now : Nat) (chars : List Char),
        read_digital_data_valid hw = false →
        (main_measure_and_log hw now s).g.log_buffer = s.g.log_buffer
        ∧ (main_cycle strtof atoi hw now chars s).1.g.log_buffer.entries
            = s.g.log_buffer.entries
        ∧ ((main_cycle strtof atoi hw now chars s).1.g.log_buffer = s.g.log_buffer
          ∨ (main_cycle strtof atoi hw now chars s).1.g.log_buffer
              = log_clear s.g.log_buffer)) := by
  refine ⟨(logValid_of_reach strtof atoi s h).2, ?_⟩
  intro hw now chars hv
  have hm := main_measure_invalid hw now s hv
  have hc : (main_cycle strtof atoi hw now chars s).1.g.log_buffer = s.g.log_buffer
      ∨ (main_cycle strtof atoi hw now chars s).1.g.log_buffer
          = log_clear s.g.log_buffer := by
    have hp := poll_log_buffer strtof atoi (main_measure_and_log hw now s).bms chars
      (main_measure_and_log hw now s).buf (main_measure_and_log hw now s).g
    rw [hm] at hp
    have e : (main_cycle strtof atoi hw now chars s).1.g.log_buffer
        = (poll_serial_commands strtof atoi (main_measure_and_log hw now s).bms chars
            (main_measure_and_log hw now s).buf s.g).2.1.log_buffer := by
      show (poll_serial_commands strtof atoi (main_measure_and_log hw now s).bms chars
            (main_measure_and_log hw now s).buf
            (main_measure_and_log hw now s).g).2.1.log_buffer = _
      rw [hm]
    rw [e]
    exact hp
  refine ⟨by rw [hm], ?_, hc⟩
  rcases hc with e | e
  · rw [e]
  · rw [e]; rfl

/-- C11 (instance): on entry to the loop the log stores no invalid entry, and a first
cycle with a failed gate and no serial input leaves the log untouched. -/
theorem C11_only_valid_logged_witness :
    MainReach strtof_sample atoi_sample main_init
    ∧ read_digital_data_valid hw_invalid = false
    ∧ (main_measure_and_log hw_invalid 1000 main_init).g.log_buffer
        = main_init.g.log_buffer :=
  ⟨MainReach.init, by decide,
   ((C11_only_valid_logged strtof_sample atoi_sample main_init MainReach.init).2
     hw_invalid 1000 [] (by decide)).1⟩

theorem main_first_cycle_log :
    (main_cycle strtof_sample atoi_sample hw_zero_scale 1000 [] main_init).1.g.log_buffer
      = log_add_entry log_buffer_init 1000
          (measure_bms hw_zero_scale Globals.defaults main_init.bms) := by
  have hv := (measure_bms_valid hw_zero_scale Globals.defaults main_init.bms (by decide)).1
  simp only [main_cycle, main_measure_and_log, poll_serial_commands]
  rw [if_pos (by exact hv)]
  rfl

theorem poll_LOGCLEAR (st : bms_status_t) (g : Globals) :
    (poll_serial_commands strtof_sample atoi_sample st
        ("LOGCLEAR".toList ++ [Char.ofNat 10]) [] g).2.1.log_buffer
      = log_clear g.log_buffer := by
  simp [poll_serial_commands, CMD_BUF_SIZE, process_command, strcmp_eq, strncmp_eq]

/-- C11 (counterexample): after one valid cycle the log holds one entry; a following
cycle whose validity gate fails and which receives the line `LOGCLEAR` ends with
`count` = 0, so that cycle did not leave the log unchanged. -/
theorem C11_gate_fail_cycle_counterexample :
    MainReach strtof_sample atoi_sample
        (main_cycle strtof_sample atoi_sample hw_zero_scale 1000 [] main_init).1
    ∧ read_digital_data_valid hw_invalid = false
    ∧ (main_cycle strtof_sample atoi_sample hw_zero_scale 1000 []
          main_init).1.g.log_buffer.count = 1
    ∧ (main_cycle strtof_sample atoi_sample hw_invalid 2000
          ("LOGCLEAR".toList ++ [Char.ofNat 10])
          (main_cycle strtof_sample atoi_sample hw_zero_scale 1000 []
            main_init).1).1.g.log_buffer.count = 0 := by
  refine ⟨MainReach.cycle _ _ _ _ MainReach.init, by decide, ?_, ?_⟩
  · rw [main_first_cycle_log]
    simp [log_add_entry, log_buffer_init, LOG_SIZE]
  · have hm := main_measure_invalid hw_invalid 2000
      (main_cycle strtof_sample atoi_sample hw_zero_scale 1000 [] main_init).1 (by decide)
    have hb : (main_measure_and_log hw_invalid 2000
        (main_cycle strtof_sample atoi_sample hw_zero_scale 1000 [] main_init).1).buf
        = [] := by
      simp only [main_measure_and_log]
      split <;> rfl
    have hp := poll_LOGCLEAR
      (main_measure_and_log hw_invalid 2000
        (main_cycle strtof_sample atoi_sample hw_zero_scale 1000 [] main_init).1).bms
      (main_measure_and_log hw_invalid 2000
        (main_cycle strtof_sample atoi_sample hw_zero_scale 1000 [] main_init).1).g
    show (poll_serial_commands strtof_sample atoi_sample _ _ _ _).2.1.log_buffer.count = 0
    rw [hb, hp]
    rfl

/-! ## Claims on the command handler -/

theorem process_command_LOGLAST (strtof : List Char → CFloat) (atoi : List Char → Int)
    (line : List Char) (st : bms_status_t) (g : Globals)
    (h : strncmp_eq line "LOGLAST " 8 = true) :
    process_command strtof atoi line st g
      = if int_to_u32 (atoi (line.drop 8)) > 0
        then (g, log_print_last g.log_buffer (int_to_u32 (atoi (line.drop 8))))
        else (g, [.text "ERR: invalid number"]) := by
  have hs := strncmp_split line _ _ h
  generalize line.drop 8 = rest at *
  subst hs
  simp [process_command, strcmp_eq, strncmp_eq]

theorem log_iterate_one_entry :
    log_iterate globals_one_entry.log_buffer = [⟨1000, status_with_cell_v (7 / 2)⟩] := by
  have h := log_iterate_add_nonfull log_buffer_init 1000 (status_with_cell_v (7 / 2))
    logInv_init (by decide)
  rw [log_iterate_init, List.nil_append] at h
  exact h

/-- C13 (failing input): on a log holding one entry the line `LOGLAST -5`, whose argument
`atoi` converts to -5, is not answered with the error: the value becomes 4294967291 in the
`uint32_t`, passes the test `n > 0`, and `log_print_last` dumps the stored entry.  The
lines `LOGLAST 0` and `LOGLAST abc` (where `atoi` gives 0) are answered with the error. -/
theorem C13_loglast_negative_dumps :
    process_command strtof_sample atoi_sample "LOGLAST -5".toList bms_status_zero
        globals_one_entry
      = (globals_one_entry, log_print_last globals_one_entry.log_buffer 4294967291)
    ∧ Out.rows (log_print_last globals_one_entry.log_buffer 4294967291)
      = [⟨1000, status_with_cell_v (7 / 2)⟩]
    ∧ process_command strtof_sample atoi_sample "LOGLAST 0".toList bms_status_zero
        globals_one_entry
      = (globals_one_entry, [.text "ERR: invalid number"])
    ∧ process_command strtof_sample atoi_sample "LOGLAST abc".toList bms_status_zero
        globals_one_entry
      = (globals_one_entry, [.text "ERR: invalid number"]) := by
  have a1 : atoi_sample ("LOGLAST -5".toList.drop 8) = -5 := by simp [atoi_sample]
  have a2 : atoi_sample ("LOGLAST 0".toList.drop 8) = 0 := by simp [atoi_sample]
  have a3 : atoi_sample ("LOGLAST abc".toList.drop 8) = 0 := by simp [atoi_sample]
  have u1 : int_to_u32 (-5) = 4294967291 := by decide
  have u2 : int_to_u32 0 = 0 := by decide
  refine ⟨?_, ?_, ?_, ?_⟩
  · rw [process_command_LOGLAST _ _ _ _ _ (by decide), a1, u1]
    simp
  · have hr : LogReach globals_one_entry.log_buffer :=
      LogReach.add _ _ _ LogReach.init
    have hne : globals_one_entry.log_buffer.count ≠ 0 := by decide
    have hcnt : globals_one_entry.log_buffer.count = 1 := by decide
    rw [rows_log_print_last _ _ hne, hcnt]
    simp only [show (4294967291 > 1) = True from by simp, if_true]
    have hv := log_visit_last globals_one_entry.log_buffer (logInv_of_reach hr) 1
      (by rw [hcnt])
    rw [hv, hcnt, log_iterate_one_entry]
    rfl
  · rw [process_command_LOGLAST _ _ _ _ _ (by decide), a2, u2]
    simp
  · rw [process_command_LOGLAST _ _ _ _ _ (by decide), a3, u2]
    simp

/-- C18: every line that passes none of the tests of `process_command` (not equal to READ,
LOG, LOGALL, LOGCSV, CSV, LOGSTATS, LOGCLEAR or HELP, and not starting with `LOGLAST `,
`SETCAL `, `CAL `, `SETOFFSET `, `OFFSET `, `SETOV ` or `SETUV `) is answered with the
unknown-command error carrying the line, and the calibration fields and the log are
unchanged.  The comparisons are case-sensitive: `read` and `SETCAL` (no argument) are
such lines. -/
theorem C18_unknown_command (strtof : List Char → CFloat) (atoi : List Char → Int)
    (line : List Char) (st : bms_status_t) (g : Globals)
    (h : known_command line = false) :
    process_command strtof atoi line st g = (g, [.unknown line]) := by
  simp only [known_command, Bool.or_eq_false_iff] at h
  obtain ⟨⟨⟨⟨⟨⟨⟨⟨⟨⟨⟨⟨⟨⟨k1, k2⟩, k3⟩, k4⟩, k5⟩, k6⟩, k7⟩, k8⟩, k9⟩, k10⟩, k11⟩, k12⟩,
    k13⟩, k14⟩, k15⟩ := h
  simp [process_command, k1, k2, k3, k4, k5, k6, k7, k8, k9, k10, k11, k12, k13, k14, k15]

/-- C18 (instance): `read` and `SETCAL` are unknown commands. -/
theorem C18_unknown_command_witness :
    known_command "read".toList = false
    ∧ process_command strtof_sample atoi_sample "read".toList bms_status_zero
        Globals.defaults = (Globals.defaults, [.unknown "read".toList])
    ∧ known_command "SETCAL".toList = false
    ∧ process_command strtof_sample atoi_sample "SETCAL".toList bms_status_zero
        Globals.defaults = (Globals.defaults, [.unknown "SETCAL".toList]) :=
  ⟨by decide,
   C18_unknown_command strtof_sample atoi_sample "read".toList bms_status_zero
     Globals.defaults (by decide),
   by decide,
   C18_unknown_command strtof_sample atoi_sample "SETCAL".toList bms_status_zero
     Globals.defaults (by decide)⟩

/-- C19: for every log state (an array of `LOG_SIZE` slots, any cursor and count),
after `log_clear` the count and the write cursor are 0 and the ordered iteration (and the
dump of `log_print_all`) yields no entry; and any sequence of appends made after the clear
gives the same ordered contents as the same appends made to the zero-initialised log. -/
theorem C19_clear_resets (lb : log_buffer_t) (xs : List (Nat × bms_status_t))
    (hlen : lb.entries.length = LOG_SIZE) :
    (log_clear lb).count = 0
    ∧ (log_clear lb).write_index = 0
    ∧ log_iterate (log_clear lb) = []
    ∧ Out.rows (log_print_all (log_clear lb)) = []
    ∧ log_iterate (log_add_entries (log_clear lb) xs)
        = log_iterate (log_add_entries log_buffer_init xs) := by
  have hinv : LogInv (log_clear lb) :=
    ⟨hlen, by simp [log_clear, LOG_SIZE], by simp [log_clear], by intro _; rfl⟩
  have hnil : log_iterate (log_clear lb) = [] := log_iterate_nil _ rfl
  refine ⟨rfl, rfl, hnil, by rw [rows_log_print_all, hnil], ?_⟩
  rw [log_iterate_add_entries xs _ hinv, log_iterate_add_entries xs _ logInv_init, hnil,
    log_iterate_init]

/-- C19 (instance): clearing the one-entry log and appending again. -/
theorem C19_clear_resets_witness :
    globals_one_entry.log_buffer.entries.length = LOG_SIZE
    ∧ log_iterate (log_add_entries (log_clear globals_one_entry.log_buffer) stats_sample)
        = log_iterate (log_add_entries log_buffer_init stats_sample) :=
  ⟨by simp [globals_one_entry, log_add_entry, log_buffer_init],
   (C19_clear_resets globals_one_entry.log_buffer stats_sample
     (by simp [globals_one_entry, log_add_entry, log_buffer_init])).2.2.2.2⟩

/-! ## Claims on the fault statistics -/

theorem stats_fold_fault_count (l : List log_entry_t) (acc : log_stats_t)
    (h : acc.fault_count + l.length < U32_MOD) :
    (l.foldl log_stats_step acc).fault_count = acc.fault_count + l.countP fault_event := by
  induction l generalizing acc with
  | nil => simp
  | cons e l ih =>
    simp only [List.length_cons] at h
    have hstep : (log_stats_step acc e).fault_count
        = acc.fault_count + (if fault_event e = true then 1 else 0) := by
      simp only [log_stats_step, fault_event]
      split
      · have : (acc.fault_count + 1) % U32_MOD = acc.fault_count + 1 :=
          Nat.mod_eq_of_lt (by omega)
        rw [this]
      · rfl
    rw [List.foldl_cons, ih _ (by rw [hstep]; split <;> omega), hstep, List.countP_cons]
    omega

/-- C17: for every non-empty log (`count` any non-zero `uint32_t`), the fault count of
`log_stats` is the number of iterated entries with at least one of `ov_flag`, `uv_flag`,
`t_warn`, `t_fault` set, each such entry counted once; so it is at most `count`, and the
printed fraction `fault_count * 100 / count` lies in [0, 100]. -/
theorem C17_fault_count (lb : log_buffer_t) (hne : lb.count ≠ 0)
    (hlt : lb.count < U32_MOD) :
    (log_stats_compute lb).fault_count = (log_iterate lb).countP fault_event
    ∧ (log_stats_compute lb).fault_count ≤ lb.count
    ∧ log_stats lb
        = [.stats (log_stats_compute lb)
            (((CFloat.ofNat (log_stats_compute lb).fault_count).mul (.fin 100)).div
              (CFloat.ofNat lb.count))]
    ∧ (((CFloat.ofNat (log_stats_compute lb).fault_count).mul (.fin 100)).div
        (CFloat.ofNat lb.count)).inClosed 0 100 := by
  have hfc : (log_stats_compute lb).fault_count = (log_iterate lb).countP fault_event := by
    have := stats_fold_fault_count (log_iterate lb) log_stats_init
      (by rw [log_iterate_length]; simpa [log_stats_init] using hlt)
    simpa [log_stats_compute, log_stats_init] using this
  have hle : (log_stats_compute lb).fault_count ≤ lb.count := by
    rw [hfc]
    calc (log_iterate lb).countP fault_event ≤ (log_iterate lb).length :=
          List.countP_le_length _
      _ = lb.count := log_iterate_length lb
  refine ⟨hfc, hle, by simp [log_stats, hne], ?_⟩
  have hpos : (0 : ℚ) < (lb.count : ℚ) := by
    exact_mod_cast Nat.pos_of_ne_zero hne
  have hne2 : (lb.count : ℚ) ≠ 0 := ne_of_gt hpos
  have hq : ((log_stats_compute lb).fault_count : ℚ) ≤ (lb.count : ℚ) := by
    exact_mod_cast hle
  simp only [CFloat.ofNat, CFloat.mul, CFloat.div, hne2, if_false, CFloat.inClosed]
  constructor
  · positivity
  · rw [div_le_iff₀ hpos]
    nlinarith

/-- C17 (instance): a log of four entries of which the second has `ov_flag` and `t_warn`
set and the third `uv_flag`: the fault count is 2 (the entry with two flags counts once)
and the printed fraction is 50. -/
theorem C17_fault_count_witness :
    (log_add_entries log_buffer_init faults_sample).count ≠ 0
    ∧ (log_add_entries log_buffer_init faults_sample).count < U32_MOD
    ∧ (log_add_entries log_buffer_init faults_sample).count = 4
    ∧ (log_stats_compute (log_add_entries log_buffer_init faults_sample)).fault_count = 2
    ∧ log_stats (log_add_entries log_buffer_init faults_sample)
        = [.stats (log_stats_compute (log_add_entries log_buffer_init faults_sample))
            (.fin 50)] := by
  have hc : (log_add_entries log_buffer_init faults_sample).count = 4 := by
    rw [log_count_fresh]; simp [faults_sample, LOG_SIZE]
  have h1 : (log_add_entries log_buffer_init faults_sample).count ≠ 0 := by rw [hc]; decide
  have h2 : (log_add_entries log_buffer_init faults_sample).count < U32_MOD := by
    rw [hc]; decide
  have h := C17_fault_count (log_add_entries log_buffer_init faults_sample) h1 h2
  have hi : log_iterate (log_add_entries log_buffer_init faults_sample)
      = faults_sample.map fun x => (⟨x.1, x.2⟩ : log_entry_t) := by
    rw [log_iterate_fresh]
    have : faults_sample.length - LOG_SIZE = 0 := by simp [faults_sample, LOG_SIZE]
    rw [this, List.drop_zero]
  have hf : (log_stats_compute (log_add_entries log_buffer_init faults_sample)).fault_count
      = 2 := by
    rw [h.1, hi]
    simp [faults_sample, fault_event, bms_status_zero]
  refine ⟨h1, h2, hc, hf, ?_⟩
  rw [h.2.2.1, hf, hc]
  simp only [CFloat.ofNat, CFloat.mul, CFloat.div]
  norm_num

/-! ## Claims on the thermal evaluation -/

theorem throttle_curve_spec_range (t : ℚ) :
    0 ≤ throttle_curve_spec t ∧ throttle_curve_spec t ≤ 1 := by
  unfold throttle_curve_spec
  split_ifs with h1 h2
  · norm_num
  · norm_num
  · have h3 : t < 55 := not_le.mp h2
    have h4 : 45 ≤ t := not_lt.mp h1
    constructor
    · have : (t - 45) / (55 - 45) ≤ 1 := by
        rw [div_le_one (by norm_num)]; linarith
      linarith
    · have : 0 ≤ (t - 45) / (55 - 45) := div_nonneg (by linarith) (by norm_num)
      linarith

theorem throttle_fin (t : ℚ) :
    calculate_throttle_factor (.fin t) = .fin (throttle_curve_spec t) := by
  unfold throttle_curve_spec
  by_cases h1 : t < 45
  · simp [calculate_throttle_factor, THROTTLE_START_TEMP, CFloat.lt, h1]
  · by_cases h2 : 55 ≤ t
    · simp [calculate_throttle_factor, THROTTLE_START_TEMP, THROTTLE_MAX_TEMP, CFloat.lt,
        CFloat.ge, CFloat.le, h1, h2]
    · have e : ((55 : ℚ) + -45 = 0) = False := by norm_num
      simp only [calculate_throttle_factor, THROTTLE_START_TEMP, THROTTLE_MAX_TEMP,
        CFloat.lt, CFloat.ge, CFloat.le, CFloat.sub, CFloat.neg, CFloat.add, CFloat.div,
        h1, h2, e, decide_False, if_false, Bool.false_eq_true]
      congr 1
      ring

theorem throttle_pinf : calculate_throttle_factor .pinf = .fin 0 := by
  simp [calculate_throttle_factor, THROTTLE_START_TEMP, THROTTLE_MAX_TEMP, CFloat.lt,
    CFloat.ge, CFloat.le]

theorem throttle_ninf : calculate_throttle_factor .ninf = .fin 1 := by
  simp [calculate_throttle_factor, THROTTLE_START_TEMP, CFloat.lt]

theorem throttle_nan : calculate_throttle_factor .nan = .nan := by
  simp [calculate_throttle_factor, THROTTLE_START_TEMP, THROTTLE_MAX_TEMP, CFloat.lt,
    CFloat.ge, CFloat.le, CFloat.sub, CFloat.neg, CFloat.add, CFloat.div]

theorem measure_bms_temperature (hw : Hw) (g : Globals) (st : bms_status_t)
    (hv : read_digital_data_valid hw = true) :
    (measure_bms hw g st).cell_temp_c = .fin (25 + ((hw.rand_temp % 20 : ℕ) : ℚ))
    ∧ (measure_bms hw g st).throttle_factor
        = calculate_throttle_factor (.fin (25 + ((hw.rand_temp % 20 : ℕ) : ℚ))) := by
  simp [measure_bms, hv, read_temperature_c, CFloat.add, CFloat.ofNat]

/-- C15: for every temperature `t` (every real value, and plus or minus infinity)
`calculate_throttle_factor t` lies in the closed interval [0, 1], with exact arithmetic
and also with every operation rounded to binary32; so does the `throttle_factor` that
every valid cycle of `measure_bms` stores. -/
theorem C15_throttle_in_unit_interval :
    (∀ t : ℚ, (calculate_throttle_factor (.fin t)).inClosed 0 1)
    ∧ (calculate_throttle_factor .pinf).inClosed 0 1
    ∧ (calculate_throttle_factor .ninf).inClosed 0 1
    ∧ (∀ t : ℚ, (calculate_throttle_factor_b32 (.fin t)).inClosed 0 1)
    ∧ (calculate_throttle_factor_b32 .pinf).inClosed 0 1
    ∧ (calculate_throttle_factor_b32 .ninf).inClosed 0 1
    ∧ (∀ (hw : Hw) (g : Globals) (st : bms_status_t), read_digital_data_valid hw = true →
        (measure_bms hw g st).throttle_factor.inClosed 0 1) := by
  have hfin : ∀ t : ℚ, (calculate_throttle_factor (.fin t)).inClosed 0 1 := by
    intro t
    rw [throttle_fin]
    exact throttle_curve_spec_range t
  refine ⟨hfin, ?_, ?_, throttle_b32_range, ?_, ?_, ?_⟩
  · rw [throttle_pinf]; simp [CFloat.inClosed]
  · rw [throttle_ninf]; simp [CFloat.inClosed]
  · rw [throttle_b32_above _ (by simp [CFloat.lt, THROTTLE_START_TEMP])
      (by simp [CFloat.ge, CFloat.le, THROTTLE_MAX_TEMP])]
    simp [CFloat.inClosed]
  · rw [throttle_b32_below _ (by simp [CFloat.lt, THROTTLE_START_TEMP])]
    simp [CFloat.inClosed]
  · intro hw g st hv
    rw [(measure_bms_temperature hw g st hv).2]
    exact hfin _

/-- C15 (instance): the factor at 50 degrees, and the factor stored by a valid sample
cycle, are in [0, 1]. -/
theorem C15_throttle_in_unit_interval_witness :
    (calculate_throttle_factor (.fin 50)).inClosed 0 1
    ∧ read_digital_data_valid hw_zero_scale = true
    ∧ (measure_bms hw_zero_scale Globals.defaults bms_status_zero).throttle_factor.inClosed
        0 1 :=
  ⟨C15_throttle_in_unit_interval.1 50, by decide,
   C15_throttle_in_unit_interval.2.2.2.2.2.2 hw_zero_scale Globals.defaults bms_status_zero
     (by decide)⟩

theorem thermal_logic (t : CFloat) :
    (t.gt TEMP_SHUT_C = true →
      t.gt TEMP_WARN_C = true ∧ calculate_throttle_factor t = .fin 0)
    ∧ (t.gt TEMP_WARN_C = true →
      ∃ r : ℚ, calculate_throttle_factor t = .fin r ∧ r < 1 / 2) := by
  cases t with
  | fin q =>
    simp only [CFloat.gt, CFloat.lt, TEMP_SHUT_C, TEMP_WARN_C, decide_eq_true_eq,
      throttle_fin]
    constructor
    · intro h
      refine ⟨by linarith, ?_⟩
      congr 1
      unfold throttle_curve_spec
      rw [if_neg (by linarith), if_pos (by linarith)]
    · intro h
      refine ⟨_, rfl, ?_⟩
      unfold throttle_curve_spec
      rw [if_neg (by linarith)]
      split_ifs with h2
      · norm_num
      · have : (5 : ℚ) / (55 - 45) < (q - 45) / (55 - 45) :=
          div_lt_div_of_pos_right (by linarith) (by norm_num)
        norm_num at this ⊢
        linarith
  | pinf =>
    rw [throttle_pinf]
    exact ⟨fun _ => ⟨by simp [CFloat.gt, CFloat.lt, TEMP_WARN_C], rfl⟩,
      fun _ => ⟨0, rfl, by norm_num⟩⟩
  | ninf => simp [CFloat.gt, CFloat.lt, TEMP_SHUT_C, TEMP_WARN_C]
  | nan => simp [CFloat.gt, CFloat.lt, TEMP_SHUT_C, TEMP_WARN_C]

theorem measure_bms_thermal (hw : Hw) (g : Globals) (st : bms_status_t)
    (hv : read_digital_data_valid hw = true) :
    (measure_bms hw g st).t_warn = (measure_bms hw g st).cell_temp_c.gt TEMP_WARN_C
    ∧ (measure_bms hw g st).t_fault = (measure_bms hw g st).cell_temp_c.gt TEMP_SHUT_C
    ∧ (measure_bms hw g st).throttle_factor
        = calculate_throttle_factor (measure_bms hw g st).cell_temp_c := by
  simp [measure_bms, hv]

/-- C20: with the thermal constants of the source (warn 50, shut 60, throttle start 45,
throttle max 55), for every temperature `t`: `t > 60` implies `t > 50` and a throttle
factor of exactly 0, and `t > 50` implies a throttle factor strictly below 0.5; so on
every valid cycle of `measure_bms` a set `t_fault` comes with a set `t_warn` and
`throttle_factor` = 0, and a set `t_warn` comes with `throttle_factor` < 0.5. -/
theorem C20_thermal_consistency (hw : Hw) (g : Globals) (st : bms_status_t)
    (hv : read_digital_data_valid hw = true) :
    (∀ t : CFloat,
      (t.gt TEMP_SHUT_C = true →
        t.gt TEMP_WARN_C = true ∧ calculate_throttle_factor t = .fin 0)
      ∧ (t.gt TEMP_WARN_C = true →
        ∃ r : ℚ, calculate_throttle_factor t = .fin r ∧ r < 1 / 2))
    ∧ ((measure_bms hw g st).t_fault = true →
        (measure_bms hw g st).t_warn = true
        ∧ (measure_bms hw g st).throttle_factor = .fin 0)
    ∧ ((measure_bms hw g st).t_warn = true →
        ∃ r : ℚ, (measure_bms hw g st).throttle_factor = .fin r ∧ r < 1 / 2) := by
  obtain ⟨hw1, hf1, ht1⟩ := measure_bms_thermal hw g st hv
  refine ⟨thermal_logic, ?_, ?_⟩
  · intro h
    rw [hf1] at h
    rw [hw1, ht1]
    exact (thermal_logic _).1 h
  · intro h
    rw [hw1] at h
    rw [ht1]
    exact (thermal_logic _).2 h

/-- C20 (instance): the logic at 61 degrees, through a valid sample cycle. -/
theorem C20_thermal_consistency_witness :
    read_digital_data_valid hw_zero_scale = true
    ∧ (CFloat.fin 61).gt TEMP_SHUT_C = true
    ∧ (CFloat.fin 61).gt TEMP_WARN_C = true
    ∧ calculate_throttle_factor (.fin 61) = .fin 0 := by
  have h61 : (CFloat.fin 61).gt TEMP_SHUT_C = true := by
    simp only [CFloat.gt, CFloat.lt, TEMP_SHUT_C, decide_eq_true_eq]; norm_num
  have h := ((C20_thermal_consistency hw_zero_scale Globals.defaults bms_status_zero
    (by decide)).1 (.fin 61)).1 h61
  exact ⟨by decide, h61, h.1, h.2⟩

/-! ## Claims on repeated delta commands -/

/-- A delta that takes an in-range value above `hi` is clamped to `hi`, and takes `hi`
itself above `hi` again. -/
theorem delta_clamp_up (c : ℚ) (d : CFloat) (lo hi : ℚ) (hlh : lo ≤ hi) (hc : c ≤ hi)
    (h : ((CFloat.fin c).add d).gt (.fin hi) = true) :
    (if (if ((CFloat.fin c).add d).lt (.fin lo) then CFloat.fin lo
          else (CFloat.fin c).add d).gt (.fin hi)
      then CFloat.fin hi
      else (if ((CFloat.fin c).add d).lt (.fin lo) then CFloat.fin lo
          else (CFloat.fin c).add d)) = .fin hi
    ∧ ((CFloat.fin hi).add d).gt (.fin hi) = true := by
  cases d with
  | fin x =>
    simp only [CFloat.add, CFloat.gt, CFloat.lt, decide_eq_true_eq] at h ⊢
    have h1 : ¬ c + x < lo := by linarith
    simp only [h1, decide_False, Bool.false_eq_true, if_false, CFloat.lt, h, decide_True,
      if_true, true_and]
    linarith
  | pinf => simp [CFloat.add, CFloat.gt, CFloat.lt]
  | ninf => simp [CFloat.add, CFloat.gt, CFloat.lt] at h
  | nan => simp [CFloat.add, CFloat.gt, CFloat.lt] at h

/-- A delta that takes an in-range value below `lo` is clamped to `lo`, and takes `lo`
itself below `lo` again. -/
theorem delta_clamp_down (c : ℚ) (d : CFloat) (lo hi : ℚ) (hlh : lo ≤ hi) (hc : lo ≤ c)
    (h : ((CFloat.fin c).add d).lt (.fin lo) = true) :
    (if (if ((CFloat.fin c).add d).lt (.fin lo) then CFloat.fin lo
          else (CFloat.fin c).add d).gt (.fin hi)
      then CFloat.fin hi
      else (if ((CFloat.fin c).add d).lt (.fin lo) then CFloat.fin lo
          else (CFloat.fin c).add d)) = .fin lo
    ∧ ((CFloat.fin lo).add d).lt (.fin lo) = true := by
  have h2 : ¬ hi < lo := not_lt.mpr hlh
  cases d with
  | fin x =>
    simp only [CFloat.add, CFloat.lt, decide_eq_true_eq] at h
    simp only [CFloat.add, CFloat.gt, CFloat.lt, h, decide_True, if_true, h2, decide_False,
      Bool.false_eq_true, if_false, true_and, decide_eq_true_eq]
    linarith
  | pinf => simp [CFloat.add, CFloat.lt] at h
  | ninf => simp [CFloat.add, CFloat.gt, CFloat.lt, h2]
  | nan => simp [CFloat.add, CFloat.lt] at h

theorem run_commands_cons (strtof : List Char → CFloat) (atoi : List Char → Int)
    (c : List Char × bms_status_t) (cmds : List (List Char × bms_status_t)) (g : Globals) :
    run_commands strtof atoi (c :: cmds) g
      = run_commands strtof atoi cmds (process_command strtof atoi c.1 c.2 g).1 := rfl

theorem cal_repeat_up (strtof : List Char → CFloat) (atoi : List Char → Int)
    (line : List Char) (st : bms_status_t) (hl : strncmp_eq line "CAL " 4 = true)
    (n : Nat) (g : Globals) (c : ℚ) (hg : g.cal_factor = .fin c) (hc : c ≤ 2)
    (h : ((CFloat.fin c).add (strtof (line.drop 4))).gt (.fin 2) = true) :
    (run_commands strtof atoi (List.replicate (n + 1) (line, st)) g).cal_factor = .fin 2 := by
  have hs := delta_clamp_up c (strtof (line.drop 4)) (1 / 2) 2 (by norm_num) hc h
  have h1 : (process_command strtof atoi line st g).1.cal_factor = .fin 2 := by
    rw [process_command_CAL strtof atoi line st g hl, hg]
    exact hs.1
  induction n generalizing g c with
  | zero => exact h1
  | succ n ih =>
    rw [List.replicate_succ, run_commands_cons]
    exact ih _ 2 h1 (le_refl _) hs.2
      (delta_clamp_up 2 _ (1 / 2) 2 (by norm_num) (le_refl _) hs.2)
      (by rw [process_command_CAL strtof atoi line st _ hl, h1]
          exact (delta_clamp_up 2 _ (1 / 2) 2 (by norm_num) (le_refl _) hs.2).1)

theorem cal_repeat_down (strtof : List Char → CFloat) (atoi : List Char → Int)
    (line : List Char) (st : bms_status_t) (hl : strncmp_eq line "CAL " 4 = true)
    (n : Nat) (g : Globals) (c : ℚ) (hg : g.cal_factor = .fin c) (hc : 1 / 2 ≤ c)
    (h : ((CFloat.fin c).add (strtof (line.drop 4))).lt (.fin (1 / 2)) = true) :
    (run_commands strtof atoi (List.replicate (n + 1) (line, st)) g).cal_factor
      = .fin (1 / 2) := by
  have hs := delta_clamp_down c (strtof (line.drop 4)) (1 / 2) 2 (by norm_num) hc h
  have h1 : (process_command strtof atoi line st g).1.cal_factor = .fin (1 / 2) := by
    rw [process_command_CAL strtof atoi line st g hl, hg]
    exact hs.1
  induction n generalizing g c with
  | zero => exact h1
  | succ n ih =>
    rw [List.replicate_succ, run_commands_cons]
    exact ih _ (1 / 2) h1 (le_refl _) hs.2
      (delta_clamp_down (1 / 2) _ (1 / 2) 2 (by norm_num) (le_refl _) hs.2)
      (by rw [process_command_CAL strtof atoi line st _ hl, h1]
          exact (delta_clamp_down (1 / 2) _ (1 / 2) 2 (by norm_num) (le_refl _) hs.2).1)

theorem offset_repeat_up (strtof : List Char → CFloat) (atoi : List Char → Int)
    (line : List Char) (st : bms_status_t) (hl : strncmp_eq line "OFFSET " 7 = true)
    (n : Nat) (g : Globals) (c : ℚ) (hg : g.voltage_offset = .fin c) (hc : c ≤ 1)
    (h : ((CFloat.fin c).add (strtof (line.drop 7))).gt (.fin 1) = true) :
    (run_commands strtof atoi (List.replicate (n + 1) (line, st)) g).voltage_offset
      = .fin 1 := by
  have hs := delta_clamp_up c (strtof (line.drop 7)) (-1) 1 (by norm_num) hc h
  have h1 : (process_command strtof atoi line st g).1.voltage_offset = .fin 1 := by
    rw [process_command_OFFSET strtof atoi line st g hl, hg]
    exact hs.1
  induction n generalizing g c with
  | zero => exact h1
  | succ n ih =>
    rw [List.replicate_succ, run_commands_cons]
    exact ih _ 1 h1 (le_refl _) hs.2
      (delta_clamp_up 1 _ (-1) 1 (by norm_num) (le_refl _) hs.2)
      (by rw [process_command_OFFSET strtof atoi line st _ hl, h1]
          exact (delta_clamp_up 1 _ (-1) 1 (by norm_num) (le_refl _) hs.2).1)

theorem offset_repeat_down (strtof : List Char → CFloat) (atoi : List Char → Int)
    (line : List Char) (st : bms_status_t) (hl : strncmp_eq line "OFFSET " 7 = true)
    (n : Nat) (g : Globals) (c : ℚ) (hg : g.voltage_offset = .fin c) (hc : -1 ≤ c)
    (h : ((CFloat.fin c).add (strtof (line.drop 7))).lt (.fin (-1)) = true) :
    (run_commands strtof atoi (List.replicate (n + 1) (line, st)) g).voltage_offset
      = .fin (-1) := by
  have hs := delta_clamp_down c (strtof (line.drop 7)) (-1) 1 (by norm_num) hc h
  have h1 : (process_command strtof atoi line st g).1.voltage_offset = .fin (-1) := by
    rw [process_command_OFFSET strtof atoi line st g hl, hg]
    exact hs.1
  induction n generalizing g c with
  | zero => exact h1
  | succ n ih =>
    rw [List.replicate_succ, run_commands_cons]
    exact ih _ (-1) h1 (le_refl _) hs.2
      (delta_clamp_down (-1) _ (-1) 1 (by norm_num) (le_refl _) hs.2)
      (by rw [process_command_OFFSET strtof atoi line st _ hl, h1]
          exact (delta_clamp_down (-1) _ (-1) 1 (by norm_num) (le_refl _) hs.2).1)

/-- C16: for every in-range current value `c` and every delta `d` with `c + d` above the
upper bound (2.0 for `CAL`, 1.0 for `OFFSET`), one application of the command stores
exactly that bound and every further application of the same command leaves it there: after
`n + 1` applications, for every `n`, the value is the bound; likewise with `c + d` below the
lower bound (0.5 for `CAL`, -1.0 for `OFFSET`). -/
theorem C16_delta_clamp_idempotent (strtof : List Char → CFloat) (atoi : List Char → Int)
    (line : List Char) (st : bms_status_t) (g : Globals) (c : ℚ) (n : Nat) :
    (strncmp_eq line "CAL " 4 = true → g.cal_factor = .fin c → 1 / 2 ≤ c → c ≤ 2 →
      (((CFloat.fin c).add (strtof (line.drop 4))).gt (.fin 2) = true →
        (run_commands strtof atoi (List.replicate (n + 1) (line, st)) g).cal_factor
          = .fin 2)
      ∧ (((CFloat.fin c).add (strtof (line.drop 4))).lt (.fin (1 / 2)) = true →
        (run_commands strtof atoi (List.replicate (n + 1) (line, st)) g).cal_factor
          = .fin (1 / 2)))
    ∧ (strncmp_eq line "OFFSET " 7 = true → g.voltage_offset = .fin c → -1 ≤ c → c ≤ 1 →
      (((CFloat.fin c).add (strtof (line.drop 7))).gt (.fin 1) = true →
        (run_commands strtof atoi (List.replicate (n + 1) (line, st)) g).voltage_offset
          = .fin 1)
      ∧ (((CFloat.fin c).add (strtof (line.drop 7))).lt (.fin (-1)) = true →
        (run_commands strtof atoi (List.replicate (n + 1) (line, st)) g).voltage_offset
          = .fin (-1))) :=
  ⟨fun hl hg h1 h2 =>
    ⟨cal_repeat_up strtof atoi line st hl n g c hg h2,
     cal_repeat_down strtof atoi line st hl n g c hg h1⟩,
   fun hl hg h1 h2 =>
    ⟨offset_repeat_up strtof atoi line st hl n g c hg h2,
     offset_repeat_down strtof atoi line st hl n g c hg h1⟩⟩

/-- C16 (instance): from the default 1.0, `CAL 5` applied four times leaves 2.0. -/
theorem C16_delta_clamp_idempotent_witness :
    strncmp_eq "CAL 5".toList "CAL " 4 = true
    ∧ Globals.defaults.cal_factor = .fin 1
    ∧ ((CFloat.fin 1).add (strtof_sample ("CAL 5".toList.drop 4))).gt (.fin 2) = true
    ∧ (run_commands strtof_sample atoi_sample
          (List.replicate (3 + 1) ("CAL 5".toList, bms_status_zero))
          Globals.defaults).cal_factor = .fin 2 := by
  have v : strtof_sample ("CAL 5".toList.drop 4) = .fin 5 := by simp [strtof_sample]
  have hgt : ((CFloat.fin 1).add (strtof_sample ("CAL 5".toList.drop 4))).gt (.fin 2)
      = true := by
    rw [v]
    simp only [CFloat.add, CFloat.gt, CFloat.lt, decide_eq_true_eq]
    norm_num
  exact ⟨by decide, rfl, hgt,
    ((C16_delta_clamp_idempotent strtof_sample atoi_sample "CAL 5".toList bms_status_zero
      Globals.defaults 1 3).1 (by decide) rfl (by norm_num) (by norm_num)).1 hgt⟩

/-! ## Claims on the RMS routines -/

theorem sqrtf_exact_sq (q : ℚ) : sqrtf_exact (.fin (q * q)) = .fin |q| := by
  have h0 : ¬ q * q < 0 := not_lt.mpr (mul_self_nonneg q)
  simp only [sqrtf_exact, h0, if_false]
  congr 1
  rw [Rat.mul_self_num, Rat.mul_self_den, Int.natAbs_mul, Nat.sqrt_eq, Nat.sqrt_eq]
  have hq : q = (q.num : ℚ) / (q.den : ℚ) := (Rat.num_div_den q).symm
  conv_rhs => rw [hq]
  rw [abs_div, Nat.cast_natAbs, Int.cast_abs]
  congr 1
  exact (abs_of_nonneg (Nat.cast_nonneg _)).symm

/-- A value above `o` and below `u` exists only when `u <= o` fails. -/
theorem CFloat.between_excludes_le (v o u : CFloat) (h1 : v.gt o = true)
    (h2 : v.lt u = true) (h3 : u.le o = true) : False := by
  cases v <;> cases o <;> cases u <;>
    simp only [CFloat.gt, CFloat.lt, CFloat.le, decide_eq_true_eq, Bool.false_eq_true]
      at h1 h2 h3
  linarith

theorem run_crossed_limits :
    process_command strtof_limits atoi_sample "SETOV 2.6".toList bms_status_zero
        Globals.defaults
      = ({ Globals.defaults with CELL_OV_LIMIT_V := .fin (26 / 10) },
         [.value "OK: OV_LIMIT=" (.fin (26 / 10))])
    ∧ process_command strtof_limits atoi_sample "SETUV 3.9".toList bms_status_zero
        { Globals.defaults with CELL_OV_LIMIT_V := .fin (26 / 10) }
      = (globals_crossed, [.value "OK: UV_LIMIT=" (.fin (39 / 10))]) := by
  have v1 : strtof_limits ("SETOV 2.6".toList.drop 6) = .fin (26 / 10) := by
    simp [strtof_limits]
  have v2 : strtof_limits ("SETUV 3.9".toList.drop 6) = .fin (39 / 10) := by
    simp [strtof_limits]
  have t1 : ((CFloat.fin (26 / 10)).gt (.fin (5 / 2)) && (CFloat.fin (26 / 10)).lt (.fin 5))
      = true := by
    rw [open_test_iff]; simp only [CFloat.inOpen]; norm_num
  have t2 : ((CFloat.fin (39 / 10)).gt (.fin 2) && (CFloat.fin (39 / 10)).lt (.fin 4))
      = true := by
    rw [open_test_iff]; simp only [CFloat.inOpen]; norm_num
  constructor
  · rw [process_command_SETOV _ _ _ _ _ (by decide), v1, if_pos t1]
  · rw [process_command_SETUV _ _ _ _ _ (by decide), v2, if_pos t2]
    rfl

theorem measure_third_scale_cell_v :
    (measure_bms hw_third_scale globals_crossed bms_status_zero).cell_v
      = .fin (1617 / 470) := by
  rw [(measure_bms_valid hw_third_scale globals_crossed bms_status_zero (by decide)).2.1]
  simp only [vpin_to_vcell, adc_raw_to_vpin, Hw.raw, hw_third_scale, globals_crossed,
    Globals.defaults, R_TOP, R_BOTTOM, CFloat.ofNat, CFloat.mul, CFloat.add, CFloat.div]
  norm_num

/-- C21: the two limits are validated independently.  From the defaults `SETOV 2.6` and
then `SETUV 3.9` are both accepted and leave `uv_limit` = 3.9 above `ov_limit` = 2.6; in
that state every valid cycle that measures a cell voltage of 3.0 V sets both `ov_flag` and
`uv_flag`, and so does the sample cycle with ADC code 1365 (about 3.44 V).  In every state
with `uv_limit <= ov_limit` no valid cycle sets both flags. -/
theorem C21_limits_not_cross_checked :
    (run_commands strtof_limits atoi_sample
        [("SETOV 2.6".toList, bms_status_zero), ("SETUV 3.9".toList, bms_status_zero)]
        Globals.defaults = globals_crossed
      ∧ (process_command strtof_limits atoi_sample "SETOV 2.6".toList bms_status_zero
          Globals.defaults).2 = [.value "OK: OV_LIMIT=" (.fin (26 / 10))]
      ∧ (process_command strtof_limits atoi_sample "SETUV 3.9".toList bms_status_zero
          { Globals.defaults with CELL_OV_LIMIT_V := .fin (26 / 10) }).2
          = [.value "OK: UV_LIMIT=" (.fin (39 / 10))]
      ∧ globals_crossed.CELL_UV_LIMIT_V.gt globals_crossed.CELL_OV_LIMIT_V = true)
    ∧ (∀ (hw : Hw) (st : bms_status_t), read_digital_data_valid hw = true →
        (measure_bms hw globals_crossed st).cell_v = .fin 3 →
        (measure_bms hw globals_crossed st).ov_flag = true
        ∧ (measure_bms hw globals_crossed st).uv_flag = true)
    ∧ ((measure_bms hw_third_scale globals_crossed bms_status_zero).data_valid = true
      ∧ (measure_bms hw_third_scale globals_crossed bms_status_zero).ov_flag = true
      ∧ (measure_bms hw_third_scale globals_crossed bms_status_zero).uv_flag = true)
    ∧ (∀ (hw : Hw) (g : Globals) (st : bms_status_t), read_digital_data_valid hw = true →
        g.CELL_UV_LIMIT_V.le g.CELL_OV_LIMIT_V = true →
        ¬ ((measure_bms hw g st).ov_flag = true ∧ (measure_bms hw g st).uv_flag = true)) := by
  obtain ⟨r1, r2⟩ := run_crossed_limits
  refine ⟨⟨?_, ?_, ?_, ?_⟩, ?_, ?_, ?_⟩
  · simp only [run_commands, List.foldl_cons, List.foldl_nil, r1, r2]
  · rw [r1]
  · rw [r2]
  · simp only [globals_crossed, CFloat.gt, CFloat.lt, decide_eq_true_eq]
    norm_num
  · intro hw st hv hc
    obtain ⟨_, _, hov, huv⟩ := measure_bms_valid hw globals_crossed st hv
    rw [hov, huv, hc]
    simp only [globals_crossed, CFloat.gt, CFloat.lt, decide_eq_true_eq]
    norm_num
  · obtain ⟨hd, _, hov, huv⟩ :=
      measure_bms_valid hw_third_scale globals_crossed bms_status_zero (by decide)
    refine ⟨hd, ?_, ?_⟩
    · rw [hov, measure_third_scale_cell_v]
      simp only [globals_crossed, CFloat.gt, CFloat.lt, decide_eq_true_eq]
      norm_num
    · rw [huv, measure_third_scale_cell_v]
      simp only [globals_crossed, CFloat.lt, decide_eq_true_eq]
      norm_num
  · intro hw g st hv hle hboth
    obtain ⟨_, _, hov, huv⟩ := measure_bms_valid hw g st hv
    rw [hov] at hboth
    rw [huv] at hboth
    exact CFloat.between_excludes_le _ _ _ hboth.1 hboth.2 hle

/-- C21 (instance): with the default limits (3.00 <= 4.20) the sample cycle with ADC code
1365 does not set both flags. -/
theorem C21_limits_not_cross_checked_witness :
    read_digital_data_valid hw_third_scale = true
    ∧ Globals.defaults.CELL_UV_LIMIT_V.le Globals.defaults.CELL_OV_LIMIT_V = true
    ∧ ¬ ((measure_bms hw_third_scale Globals.defaults bms_status_zero).ov_flag = true
        ∧ (measure_bms hw_third_scale Globals.defaults bms_status_zero).uv_flag = true) := by
  have hle : Globals.defaults.CELL_UV_LIMIT_V.le Globals.defaults.CELL_OV_LIMIT_V = true := by
    simp only [Globals.defaults, CFloat.le, decide_eq_true_eq]
    norm_num
  exact ⟨by decide, hle,
    C21_limits_not_cross_checked.2.2.2 hw_third_scale Globals.defaults bms_status_zero
      (by decide) hle⟩

end BMS
